import Mathlib

/-!
Shallow embedding of the astro-feedback service core: the vote ledger
(POST/DELETE /api/feedback/{id}/vote), the feedback submission handler
(POST /api/feedback), the feedback query planner (GET /api/feedback and
getPublicFeedback), and the query-parameter schema (feedbackQuerySchema).

Tables are modelled as lists of rows inside a DbState record; the astro:db
query combinators (select().where().get(), insert, update, delete) become
List.find?, append, map and filter.  Machine numbers from JavaScript are
modelled as Int (counters, timestamps in epoch milliseconds) and Nat (ids).
-/

/-- type column of Feedback (db/config.ts). -/
inductive FeedbackType where
  | bug | feature | improvement | question | compliment | complaint | other
deriving DecidableEq

/-- status column of Feedback (db/config.ts). -/
inductive Status where
  | new | in_review | in_progress | resolved | closed | spam
deriving DecidableEq

/-- priority column of Feedback (db/config.ts). -/
inductive Priority where
  | low | medium | high | urgent
deriving DecidableEq

/-- voteType column of FeedbackVotes (db/config.ts). -/
inductive VoteType where
  | up | down
deriving DecidableEq

instance : BEq FeedbackType := ⟨fun a b => decide (a = b)⟩
instance : LawfulBEq FeedbackType := ⟨by intro a b h; simpa using h, by intro a; simp⟩
instance : BEq Status := ⟨fun a b => decide (a = b)⟩
instance : LawfulBEq Status := ⟨by intro a b h; simpa using h, by intro a; simp⟩
instance : BEq Priority := ⟨fun a b => decide (a = b)⟩
instance : LawfulBEq Priority := ⟨by intro a b h; simpa using h, by intro a; simp⟩
instance : BEq VoteType := ⟨fun a b => decide (a = b)⟩
instance : LawfulBEq VoteType := ⟨by intro a b h; simpa using h, by intro a; simp⟩

/-- Per-website rate-limit configuration inside the settings JSON blob
(websiteSchema in the schemas module; consumed by POST /api/feedback). -/
structure RateLimitCfg where
  maxSubmissions : Nat
  windowMinutes : Nat
deriving DecidableEq

/-- The settings JSON blob of a website (websiteSchema).  Only rateLimit is
consulted by the modelled handlers. -/
structure WebsiteSettings where
  rateLimit : Option RateLimitCfg := none
  allowedOrigins : Option (List String) := none
  moderationRequired : Bool := false
  emailNotifications : Bool := true
deriving DecidableEq

/-- A row of the Websites table (db/config.ts). -/
structure WebsiteRow where
  id : Nat
  name : String := ""
  domain : String := ""
  apiKey : String
  description : Option String := none
  isActive : Bool := true
  settings : Option WebsiteSettings := none
  createdAt : Int := 0
  updatedAt : Int := 0
deriving DecidableEq

/-- A row of the FeedbackCategories table (db/config.ts). -/
structure CategoryRow where
  id : Nat
  websiteId : Nat
  name : String := ""
  slug : String
  description : Option String := none
  color : Option String := none
  isActive : Bool := true
  sortOrder : Nat := 0
  createdAt : Int := 0
deriving DecidableEq

/-- A row of the Feedback table (db/config.ts).  The metadata JSON blob is
modelled opaquely as a string. -/
structure FeedbackRow where
  id : Nat
  websiteId : Nat
  categoryId : Option Nat := none
  ftype : FeedbackType := FeedbackType.other
  status : Status := Status.new
  priority : Priority := Priority.medium
  title : String := ""
  description : String := ""
  email : Option String := none
  name : Option String := none
  userAgent : Option String := none
  url : Option String := none
  ipAddress : Option String := none
  metadata : Option String := none
  isPublic : Bool := false
  upvotes : Int := 0
  downvotes : Int := 0
  createdAt : Int := 0
  updatedAt : Int := 0
deriving DecidableEq

/-- A row of the FeedbackVotes table (db/config.ts).  voterEmail is an
optional column; voterIp is NOT optional: every row carries an IP. -/
structure VoteRow where
  id : Nat
  feedbackId : Nat
  voterEmail : Option String
  voterIp : String
  voteType : VoteType
  createdAt : Int := 0
deriving DecidableEq

/-- The eventData JSON written by POST /api/feedback. -/
structure AnalyticsData where
  feedbackId : Nat
  ftype : FeedbackType
  hasEmail : Bool
  hasCategory : Bool
deriving DecidableEq

/-- A row of the AnalyticsEvents table (db/config.ts). -/
structure AnalyticsRow where
  id : Nat
  websiteId : Nat
  eventType : String
  eventData : Option AnalyticsData := none
  userAgent : Option String := none
  ipAddress : Option String := none
  createdAt : Int := 0
deriving DecidableEq

/-- The relational store shared by all handlers.  The nextXId counters model
the autoincrementing primary keys. -/
structure DbState where
  websites : List WebsiteRow := []
  categories : List CategoryRow := []
  feedback : List FeedbackRow := []
  votes : List VoteRow := []
  analytics : List AnalyticsRow := []
  nextFeedbackId : Nat := 1
  nextVoteId : Nat := 1
  nextAnalyticsId : Nat := 1
deriving DecidableEq

/-- verifyApiKey from src/lib/utils.ts (duplicated verbatim in the vote
endpoint): select the website whose id and apiKey both match; fail when the
row is missing or the website is inactive. -/
def verifyApiKey (s : DbState) (websiteId : Nat) (apiKey : String) : Option WebsiteRow :=
  match s.websites.find? (fun w => w.id == websiteId && w.apiKey == apiKey) with
  | none => none
  | some w => if w.isActive then some w else none

/-- select().from(Feedback).where(eq(Feedback.id, feedbackId)).get() -/
def findFeedback (s : DbState) (fid : Nat) : Option FeedbackRow :=
  s.feedback.find? (fun f => f.id == fid)

/-- The existing-vote lookup conditions of the vote endpoint: always
eq(feedbackId); then eq(voterEmail) when an email was supplied, else
eq(voterIp). -/
def identLookupP (fid : Nat) (voterEmail : Option String) (ip : String) (v : VoteRow) : Bool :=
  v.feedbackId == fid &&
    match voterEmail with
    | some e => v.voterEmail == some e
    | none => v.voterIp == ip

/-- select().from(FeedbackVotes).where(and(...existingVoteConditions)).get() -/
def lookupVote (s : DbState) (fid : Nat) (voterEmail : Option String) (ip : String) :
    Option VoteRow :=
  s.votes.find? (identLookupP fid voterEmail ip)

/-- Whether inserting this row satisfies the two unique indexes of the
FeedbackVotes table: (feedbackId, voterIp) and (feedbackId, voterEmail)
(db/config.ts; NULL emails are pairwise distinct, as in SQLite). -/
def insertRowOk (s : DbState) (row : VoteRow) : Bool :=
  s.votes.all (fun v => !(v.feedbackId == row.feedbackId && v.voterIp == row.voterIp)) &&
    match row.voterEmail with
    | some e =>
        s.votes.all (fun v => !(v.feedbackId == row.feedbackId && v.voterEmail == some e))
    | none => true

/-- The vote row built by db.insert(FeedbackVotes).values({...}) in the vote
endpoint: voterEmail from the body when supplied (|| null), voterIp always
the caller's IP. -/
def mkVoteRow (s : DbState) (fid : Nat) (voterEmail : Option String) (ip : String)
    (vt : VoteType) (now : Int) : VoteRow :=
  { id := s.nextVoteId, feedbackId := fid, voterEmail := voterEmail, voterIp := ip,
    voteType := vt, createdAt := now }

/-- db.update(FeedbackVotes).set({voteType}).where(eq(FeedbackVotes.id, ...)) -/
def setVoteTypeById (s : DbState) (vid : Nat) (vt : VoteType) : DbState :=
  { s with votes := s.votes.map (fun v => if v.id == vid then { v with voteType := vt } else v) }

/-- db.delete(FeedbackVotes).where(eq(FeedbackVotes.id, ...)) -/
def deleteVoteById (s : DbState) (vid : Nat) : DbState :=
  { s with votes := s.votes.filter (fun v => !(v.id == vid)) }

/-- db.update(Feedback).set({...}).where(eq(Feedback.id, feedbackId)): sets
whichever of upvotes/downvotes the source statement lists, plus updatedAt. -/
def updateCountsById (s : DbState) (fid : Nat) (up down : Option Int) (now : Int) : DbState :=
  { s with feedback := s.feedback.map (fun f =>
      if f.id == fid then
        { f with upvotes := up.getD f.upvotes, downvotes := down.getD f.downvotes,
                 updatedAt := now }
      else f) }

/-- One primitive database write of the vote endpoint's mutation section.
Each corresponds to one standalone awaited statement in the source; there is
no enclosing transaction. -/
inductive VoteWrite where
  | insertRow (row : VoteRow)
  | setRowType (vid : Nat) (vt : VoteType)
  | setCounts (fid : Nat) (up down : Option Int) (now : Int)
deriving DecidableEq

/-- Commit one primitive write.  A unique-index violation on insert leaves
the store unchanged (the statement throws before writing). -/
def applyVoteWrite (s : DbState) : VoteWrite → DbState
  | VoteWrite.insertRow row =>
      if insertRowOk s row then
        { s with votes := s.votes ++ [row], nextVoteId := s.nextVoteId + 1 }
      else s
  | VoteWrite.setRowType vid vt => setVoteTypeById s vid vt
  | VoteWrite.setCounts fid up down now => updateCountsById s fid up down now

/-- The sequence of database writes the POST vote handler issues after
validation and authentication, in source order (part_002 lines 102-152):
flip = [update vote row, update both counters]; new vote = [insert row,
update one counter]; idempotent repeat = []. -/
def castVoteWrites (s : DbState) (fid : Nat) (voterEmail : Option String) (ip : String)
    (vt : VoteType) (now : Int) : List VoteWrite :=
  match findFeedback s fid with
  | none => []
  | some fb =>
    match lookupVote s fid voterEmail ip with
    | some ex =>
        if ex.voteType ≠ vt then
          [VoteWrite.setRowType ex.id vt,
           VoteWrite.setCounts fid
             (some (fb.upvotes + (if vt = VoteType.up then 1 else -1)))
             (some (fb.downvotes + (if vt = VoteType.down then 1 else -1))) now]
        else []
    | none =>
        [VoteWrite.insertRow (mkVoteRow s fid voterEmail ip vt now),
         if vt = VoteType.up then VoteWrite.setCounts fid (some (fb.upvotes + 1)) none now
         else VoteWrite.setCounts fid none (some (fb.downvotes + 1)) now]

/-- Response of the vote endpoints. -/
inductive VoteOutcome where
  | badRequest
  | unauthorized
  | forbidden
  | notFound
  | voteNotFound
  | ok (upvotes downvotes : Int)
  | internalError
deriving DecidableEq

/-- The re-select at the end of both vote handlers: updatedFeedback?.upvotes
with || 0 fallbacks. -/
def voteCountsResult (s : DbState) (fid : Nat) : VoteOutcome :=
  match findFeedback s fid with
  | some f => VoteOutcome.ok f.upvotes f.downvotes
  | none => VoteOutcome.ok 0 0

/-- POST /api/feedback/{id}/vote (part_002).  fid = 0 models the falsy
parseInt result rejected as 'Invalid feedback ID'; voterEmail/vt are the
zod-validated body; ip is the caller's resolved IP.  The mutation section
runs as sequential writes; an insert rejected by a unique index throws into
the catch-all, which answers 500 with no further write. -/
def castVote (s : DbState) (fid : Nat) (apiKey : Option String)
    (voterEmail : Option String) (ip : String) (vt : VoteType) (now : Int) :
    DbState × VoteOutcome :=
  if fid = 0 then (s, VoteOutcome.badRequest)
  else
    match apiKey with
    | none => (s, VoteOutcome.unauthorized)
    | some key =>
      match findFeedback s fid with
      | none => (s, VoteOutcome.notFound)
      | some fb =>
        match verifyApiKey s fb.websiteId key with
        | none => (s, VoteOutcome.forbidden)
        | some _ =>
          match lookupVote s fid voterEmail ip with
          | some ex =>
              if ex.voteType ≠ vt then
                let s1 := setVoteTypeById s ex.id vt
                let s2 := updateCountsById s1 fid
                  (some (fb.upvotes + (if vt = VoteType.up then 1 else -1)))
                  (some (fb.downvotes + (if vt = VoteType.down then 1 else -1))) now
                (s2, voteCountsResult s2 fid)
              else (s, voteCountsResult s fid)
          | none =>
              let row := mkVoteRow s fid voterEmail ip vt now
              if insertRowOk s row then
                let s1 := { s with votes := s.votes ++ [row], nextVoteId := s.nextVoteId + 1 }
                let s2 :=
                  if vt = VoteType.up then updateCountsById s1 fid (some (fb.upvotes + 1)) none now
                  else updateCountsById s1 fid none (some (fb.downvotes + 1)) now
                (s2, voteCountsResult s2 fid)
              else (s, VoteOutcome.internalError)

/-- DELETE /api/feedback/{id}/vote (part_002): identity from the
x-voter-email header when present, else the caller's IP; 404 when no vote
row matches; otherwise delete the row and decrement the matching counter. -/
def removeVote (s : DbState) (fid : Nat) (apiKey : Option String)
    (voterEmail : Option String) (ip : String) (now : Int) :
    DbState × VoteOutcome :=
  if fid = 0 then (s, VoteOutcome.badRequest)
  else
    match apiKey with
    | none => (s, VoteOutcome.unauthorized)
    | some key =>
      match findFeedback s fid with
      | none => (s, VoteOutcome.notFound)
      | some fb =>
        match verifyApiKey s fb.websiteId key with
        | none => (s, VoteOutcome.forbidden)
        | some _ =>
          match lookupVote s fid voterEmail ip with
          | none => (s, VoteOutcome.voteNotFound)
          | some ex =>
              let s1 := deleteVoteById s ex.id
              let s2 :=
                if ex.voteType = VoteType.up then
                  updateCountsById s1 fid (some (fb.upvotes - 1)) none now
                else updateCountsById s1 fid none (some (fb.downvotes - 1)) now
              (s2, voteCountsResult s2 fid)

/-- The zod-validated body of POST /api/feedback (feedbackSubmissionSchema). -/
structure SubmitBody where
  websiteId : Nat
  categoryId : Option Nat := none
  ftype : FeedbackType
  title : String
  description : String
  email : Option String := none
  name : Option String := none
  url : Option String := none
  metadata : Option String := none
deriving DecidableEq

/-- Response of POST /api/feedback. -/
inductive SubmitOutcome where
  | unauthorized
  | forbidden
  | rateLimited
  | created (id : Nat) (status : Status) (createdAt : Int)
  | internalError
deriving DecidableEq

/-- The rate-limit count query of POST /api/feedback: feedback rows of this
website from the same IP with createdAt strictly after windowStart. -/
def countRecent (s : DbState) (wid : Nat) (ip : String) (windowStart : Int) : Nat :=
  s.feedback.countP (fun f =>
    f.websiteId == wid && f.ipAddress == some ip && decide (windowStart < f.createdAt))

/-- The feedback row inserted by POST /api/feedback: status forced to new,
priority medium, isPublic false, counters zeroed, server-captured
user-agent/IP, createdAt/updatedAt defaulted to NOW. -/
def mkFeedbackRow (s : DbState) (body : SubmitBody) (ip ua : String) (now : Int) :
    FeedbackRow :=
  { id := s.nextFeedbackId, websiteId := body.websiteId, categoryId := body.categoryId,
    ftype := body.ftype, status := Status.new, priority := Priority.medium,
    title := body.title, description := body.description, email := body.email,
    name := body.name, userAgent := some ua, url := body.url, ipAddress := some ip,
    metadata := body.metadata, isPublic := false, upvotes := 0, downvotes := 0,
    createdAt := now, updatedAt := now }

/-- The insert-then-analytics tail of POST /api/feedback.  The analytics
insert is a plain awaited statement with no surrounding try/catch of its
own: analyticsOk = false models it throwing, which lands in the handler's
outer catch and answers 500 — after the feedback row is already inserted. -/
def submitInsert (s : DbState) (body : SubmitBody) (ip ua : String) (now : Int)
    (analyticsOk : Bool) : DbState × SubmitOutcome :=
  let row := mkFeedbackRow s body ip ua now
  let s1 := { s with feedback := s.feedback ++ [row], nextFeedbackId := s.nextFeedbackId + 1 }
  if analyticsOk then
    let ev : AnalyticsRow :=
      { id := s1.nextAnalyticsId, websiteId := body.websiteId,
        eventType := "feedback_submitted",
        eventData := some { feedbackId := row.id, ftype := body.ftype,
                            hasEmail := body.email.isSome,
                            hasCategory := body.categoryId.isSome },
        userAgent := some ua, ipAddress := some ip, createdAt := now }
    let s2 := { s1 with analytics := s1.analytics ++ [ev],
                        nextAnalyticsId := s1.nextAnalyticsId + 1 }
    (s2, SubmitOutcome.created row.id row.status row.createdAt)
  else (s1, SubmitOutcome.internalError)

/-- POST /api/feedback (src/pages/api/feedback/index.ts): api-key check
(401), verifyApiKey (403), optional rate-limit check against the settings
blob (429, no insert), then insert and analytics append. -/
def submitFeedback (s : DbState) (body : SubmitBody) (apiKey : Option String)
    (ip ua : String) (now : Int) (analyticsOk : Bool) : DbState × SubmitOutcome :=
  match apiKey with
  | none => (s, SubmitOutcome.unauthorized)
  | some key =>
    match verifyApiKey s body.websiteId key with
    | none => (s, SubmitOutcome.forbidden)
    | some w =>
      match (w.settings.getD {}).rateLimit with
      | some rl =>
          let windowStart := now - (rl.windowMinutes : Int) * 60 * 1000
          if rl.maxSubmissions ≤ countRecent s body.websiteId ip windowStart then
            (s, SubmitOutcome.rateLimited)
          else submitInsert s body ip ua now analyticsOk
      | none => submitInsert s body ip ua now analyticsOk

/-- Sort keys of feedbackQuerySchema. -/
inductive SortKey where
  | newest | oldest | priority | upvotes
deriving DecidableEq

/-- SQLite orders the priority text column lexicographically; on the strings
of this enum that order is high < low < medium < urgent.  This rank realises
exactly that byte order. -/
def priorityLexRank : Priority → Nat
  | Priority.high => 0
  | Priority.low => 1
  | Priority.medium => 2
  | Priority.urgent => 3

/-- The orderBy comparator of GET /api/feedback (lines 234-248): oldest =
asc(createdAt); priority = desc(priority) on the text column; upvotes =
desc(upvotes); default (newest) = desc(createdAt). -/
def sortLe (k : SortKey) (a b : FeedbackRow) : Bool :=
  match k with
  | SortKey.oldest => decide (a.createdAt ≤ b.createdAt)
  | SortKey.priority => decide (priorityLexRank b.priority ≤ priorityLexRank a.priority)
  | SortKey.upvotes => decide (b.upvotes ≤ a.upvotes)
  | SortKey.newest => decide (b.createdAt ≤ a.createdAt)

/-- ORDER BY modelled as a sort of the filtered rows. -/
def sortFeedback (k : SortKey) (l : List FeedbackRow) : List FeedbackRow :=
  List.insertionSort (fun a b => sortLe k a b = true) l

/-- The validated query of GET /api/feedback (feedbackQuerySchema output). -/
structure FeedbackQuery where
  status : Option Status := none
  ftype : Option FeedbackType := none
  categorySlug : Option String := none
  limit : Nat := 10
  offset : Nat := 0
  sort : SortKey := SortKey.newest
  publicParam : Option Bool := none
deriving DecidableEq

/-- The category-slug resolution of GET /api/feedback (lines 217-232):
look the slug up among this website's categories; its id when found. -/
def resolveCategory (s : DbState) (wid : Nat) (slug : Option String) : Option Nat :=
  match slug with
  | none => none
  | some sl =>
      (s.categories.find? (fun c => c.websiteId == wid && c.slug == sl)).map (fun c => c.id)

/-- The conjunctive WHERE conditions of GET /api/feedback (lines 211-232),
with the category condition already resolved to an id (or dropped). -/
def matchesQuery (wid : Nat) (q : FeedbackQuery) (catId : Option Nat) (f : FeedbackRow) : Bool :=
  f.websiteId == wid &&
    (match q.status with | some st => f.status == st | none => true) &&
    (match q.ftype with | some t => f.ftype == t | none => true) &&
    (match q.publicParam with | some true => f.isPublic | _ => true) &&
    (match catId with | some cid => f.categoryId == some cid | none => true)

/-- One item of the GET /api/feedback select list, including the left-joined
category name. -/
structure ItemOut where
  id : Nat
  websiteId : Nat
  categoryId : Option Nat
  ftype : FeedbackType
  status : Status
  priority : Priority
  title : String
  description : String
  email : Option String
  name : Option String
  url : Option String
  isPublic : Bool
  upvotes : Int
  downvotes : Int
  createdAt : Int
  updatedAt : Int
  categoryName : Option String
deriving DecidableEq

/-- leftJoin(FeedbackCategories, eq(Feedback.categoryId, FeedbackCategories.id)):
categories are keyed by primary key, so at most one row joins. -/
def joinedCategoryName (s : DbState) (f : FeedbackRow) : Option String :=
  match f.categoryId with
  | none => none
  | some cid => (s.categories.find? (fun c => c.id == cid)).map (fun c => c.name)

def projectItem (s : DbState) (f : FeedbackRow) : ItemOut :=
  { id := f.id, websiteId := f.websiteId, categoryId := f.categoryId, ftype := f.ftype,
    status := f.status, priority := f.priority, title := f.title,
    description := f.description, email := f.email, name := f.name, url := f.url,
    isPublic := f.isPublic, upvotes := f.upvotes, downvotes := f.downvotes,
    createdAt := f.createdAt, updatedAt := f.updatedAt,
    categoryName := joinedCategoryName s f }

/-- The successful payload of GET /api/feedback: the page plus the
pagination envelope computed at lines 250-299. -/
structure ListResult where
  items : List ItemOut
  total : Nat
  page : Nat
  limit : Nat
  totalPages : Nat
deriving DecidableEq

/-- The read path of GET /api/feedback after validation: resolve the
category slug, take the conjunctive filters, count matching rows with a
separate count query, slice the sorted rows with LIMIT/OFFSET, and report
total, page = floor(offset/limit)+1 and totalPages = ceil(total/limit)
(Math.ceil on naturals = (total + limit - 1) / limit for limit ≥ 1). -/
def listFeedback (s : DbState) (wid : Nat) (q : FeedbackQuery) : ListResult :=
  let catId := resolveCategory s wid q.categorySlug
  let total := s.feedback.countP (matchesQuery wid q catId)
  let page := ((sortFeedback q.sort (s.feedback.filter (matchesQuery wid q catId))).drop
    q.offset).take q.limit
  { items := page.map (projectItem s), total := total,
    page := q.offset / q.limit + 1, limit := q.limit,
    totalPages := (total + q.limit - 1) / q.limit }

/-- Sort keys accepted by getPublicFeedback in src/lib/utils.ts. -/
inductive PublicSortKey where
  | newest | oldest | upvotes
deriving DecidableEq

/-- One item of the getPublicFeedback select list. -/
structure PublicItem where
  id : Nat
  ftype : FeedbackType
  status : Status
  title : String
  description : String
  upvotes : Int
  downvotes : Int
  createdAt : Int
  categoryName : Option String
  categoryColor : Option String
deriving DecidableEq

def projectPublicItem (s : DbState) (f : FeedbackRow) : PublicItem :=
  { id := f.id, ftype := f.ftype, status := f.status, title := f.title,
    description := f.description, upvotes := f.upvotes, downvotes := f.downvotes,
    createdAt := f.createdAt,
    categoryName := joinedCategoryName s f,
    categoryColor := match f.categoryId with
      | none => none
      | some cid => ((s.categories.find? (fun c => c.id == cid)).bind (fun c => c.color)) }

/-- The orderBy of getPublicFeedback (src/lib/utils.ts lines 111-121), kept
exactly as written in the source: the oldest case also assigns
desc(Feedback.createdAt). -/
def publicSortLe (k : PublicSortKey) (a b : FeedbackRow) : Bool :=
  match k with
  | PublicSortKey.oldest => decide (b.createdAt ≤ a.createdAt)
  | PublicSortKey.upvotes => decide (b.upvotes ≤ a.upvotes)
  | PublicSortKey.newest => decide (b.createdAt ≤ a.createdAt)

/-- getPublicFeedback from src/lib/utils.ts: public rows of the website,
optional type filter, category slug resolved with the same silent drop,
sorted per publicSortLe, then OFFSET/LIMIT. -/
def getPublicFeedback (s : DbState) (websiteId : Nat) (limit offset : Nat)
    (ftype : Option FeedbackType) (category : Option String) (sort : PublicSortKey) :
    List PublicItem :=
  let catId := resolveCategory s websiteId category
  let conds : FeedbackRow → Bool := fun f =>
    f.websiteId == websiteId && f.isPublic &&
      (match ftype with | some t => f.ftype == t | none => true) &&
      (match catId with | some cid => f.categoryId == some cid | none => true)
  (((List.insertionSort (fun a b => publicSortLe sort a b = true)
      (s.feedback.filter conds)).drop offset).take limit).map (projectPublicItem s)

/-- Decimal digit value. -/
def decDigitVal (c : Char) : Option Nat :=
  if c.isDigit then some (c.toNat - 48) else none

/-- Hexadecimal digit value. -/
def hexDigitVal (c : Char) : Option Nat :=
  if c.isDigit then some (c.toNat - 48)
  else if 'a' ≤ c && c ≤ 'f' then some (c.toNat - 87)
  else if 'A' ≤ c && c ≤ 'F' then some (c.toNat - 55)
  else none

/-- Accumulate the longest leading run of digits. -/
def parseDigitsAcc (dv : Char → Option Nat) (base : Nat) : List Char → Nat → Nat
  | [], acc => acc
  | c :: cs, acc =>
    match dv c with
    | some d => parseDigitsAcc dv base cs (acc * base + d)
    | none => acc

/-- Models JavaScript parseInt(string) with the radix argument omitted, as
called by feedbackQuerySchema: skip leading whitespace, optional sign, an
optional 0x/0X hexadecimal prefix, then the longest run of digits; NaN
(here: none) when no digit follows. -/
def jsParseInt (s : String) : Option Int :=
  let cs := s.data.dropWhile (fun c => c == ' ' || c == '\t' || c == '\n' || c == '\r')
  let signed : Bool × List Char :=
    match cs with
    | '-' :: rest => (true, rest)
    | '+' :: rest => (false, rest)
    | rest => (false, rest)
  let hexed : Nat × (Char → Option Nat) × List Char :=
    match signed.2 with
    | '0' :: 'x' :: rest => (16, hexDigitVal, rest)
    | '0' :: 'X' :: rest => (16, hexDigitVal, rest)
    | rest => (10, decDigitVal, rest)
  match hexed.2.2 with
  | [] => none
  | c :: _ =>
    match hexed.2.1 c with
    | none => none
    | some _ =>
      let n := parseDigitsAcc hexed.2.1 hexed.1 hexed.2.2 0
      some (if signed.1 then -(n : Int) else (n : Int))

/-- The limit field of feedbackQuerySchema:
z.string().transform(val => parseInt(val) || 10).pipe(z.number().min(1).max(100)).
parseInt results that are falsy (NaN or 0) become the default 10 before the
1..100 bound is checked; none models a zod validation failure (400). -/
def feedbackQueryLimit (val : String) : Option Nat :=
  let trans : Int :=
    match jsParseInt val with
    | some n => if n = 0 then 10 else n
    | none => 10
  if 1 ≤ trans ∧ trans ≤ 100 then some trans.toNat else none

/-- The offset field of feedbackQuerySchema:
z.string().transform(val => parseInt(val) || 0).pipe(z.number().min(0)). -/
def feedbackQueryOffset (val : String) : Option Nat :=
  let trans : Int :=
    match jsParseInt val with
    | some n => n
    | none => 0
  if 0 ≤ trans then some trans.toNat else none

def statusOfString : String → Option Status
  | "new" => some Status.new
  | "in_review" => some Status.in_review
  | "in_progress" => some Status.in_progress
  | "resolved" => some Status.resolved
  | "closed" => some Status.closed
  | "spam" => some Status.spam
  | _ => none

def feedbackTypeOfString : String → Option FeedbackType
  | "bug" => some FeedbackType.bug
  | "feature" => some FeedbackType.feature
  | "improvement" => some FeedbackType.improvement
  | "question" => some FeedbackType.question
  | "compliment" => some FeedbackType.compliment
  | "complaint" => some FeedbackType.complaint
  | "other" => some FeedbackType.other
  | _ => none

def sortKeyOfString : String → Option SortKey
  | "newest" => some SortKey.newest
  | "oldest" => some SortKey.oldest
  | "priority" => some SortKey.priority
  | "upvotes" => some SortKey.upvotes
  | _ => none

/-- searchParams.get(k) || '...': null and the empty string both fall back
to the default (JavaScript || on a string-or-null). -/
def orElseStr (v : Option String) (d : String) : String :=
  match v with
  | some s => if s = "" then d else s
  | none => d

/-- searchParams.get(k) || undefined. -/
def orUndef (v : Option String) : Option String :=
  match v with
  | some s => if s = "" then none else some s
  | none => none

/-- The raw query parameters of GET /api/feedback as taken from the URL
(none = parameter absent). -/
structure RawListQuery where
  status : Option String := none
  ftype : Option String := none
  category : Option String := none
  limit : Option String := none
  offset : Option String := none
  sort : Option String := none
  publicQ : Option String := none
deriving DecidableEq

/-- Option-level traversal used to fail validation when an optional enum
field is present but invalid. -/
def parseOpt (p : String → Option α) : Option String → Option (Option α)
  | none => some none
  | some s =>
    match p s with
    | some a => some (some a)
    | none => none

/-- feedbackQuerySchema.safeParse of the object built at GET lines 185-193:
status/type/category via || undefined, limit via || '10', offset via || '0',
sort via || 'newest', public transformed to (val === 'true').  none models a
failed validation (400 Invalid query parameters). -/
def parseFeedbackQuery (raw : RawListQuery) : Option FeedbackQuery :=
  match parseOpt statusOfString (orUndef raw.status) with
  | none => none
  | some st =>
    match parseOpt feedbackTypeOfString (orUndef raw.ftype) with
    | none => none
    | some ft =>
      match feedbackQueryLimit (orElseStr raw.limit "10") with
      | none => none
      | some lim =>
        match feedbackQueryOffset (orElseStr raw.offset "0") with
        | none => none
        | some off =>
          match sortKeyOfString (orElseStr raw.sort "newest") with
          | none => none
          | some sk =>
            some { status := st, ftype := ft, categorySlug := orUndef raw.category,
                   limit := lim, offset := off, sort := sk,
                   publicParam := (orUndef raw.publicQ).map (fun v => v == "true") }

/-- Response of GET /api/feedback. -/
inductive ListOutcome where
  | badRequest
  | unauthorized
  | forbidden
  | invalidQuery
  | okList (r : ListResult)
deriving DecidableEq

/-- GET /api/feedback (src/pages/api/feedback/index.ts): websiteId falsy →
400; missing key → 401; verifyApiKey failure → 403; schema failure → 400;
otherwise the query planner's page. -/
def getFeedbackRoute (s : DbState) (websiteId : Nat) (apiKey : Option String)
    (raw : RawListQuery) : ListOutcome :=
  if websiteId = 0 then ListOutcome.badRequest
  else
    match apiKey with
    | none => ListOutcome.unauthorized
    | some key =>
      match verifyApiKey s websiteId key with
      | none => ListOutcome.forbidden
      | some _ =>
        match parseFeedbackQuery raw with
        | none => ListOutcome.invalidQuery
        | some q => ListOutcome.okList (listFeedback s websiteId q)

/-- An up-vote row of this feedback item. -/
def upVoteP (fid : Nat) (v : VoteRow) : Bool :=
  v.feedbackId == fid && v.voteType == VoteType.up

/-- A down-vote row of this feedback item. -/
def downVoteP (fid : Nat) (v : VoteRow) : Bool :=
  v.feedbackId == fid && v.voteType == VoteType.down

/-- Number of up-vote rows of this item in the ledger. -/
def countUp (s : DbState) (fid : Nat) : Nat := s.votes.countP (upVoteP fid)

/-- Number of down-vote rows of this item in the ledger. -/
def countDown (s : DbState) (fid : Nat) : Nat := s.votes.countP (downVoteP fid)

/-- The denormalized counters of every feedback row agree with the ledger. -/
def CountersOk (s : DbState) : Prop :=
  ∀ f ∈ s.feedback,
    f.upvotes = (countUp s f.id : Int) ∧ f.downvotes = (countDown s f.id : Int)

/-- Primary-key discipline of the vote table: ids are pairwise distinct and
below the autoincrement counter. -/
def VoteIdsOk (s : DbState) : Prop :=
  s.votes.Pairwise (fun a b => a.id ≠ b.id) ∧ ∀ v ∈ s.votes, v.id < s.nextVoteId

/-- The ledger invariant of the vote subsystem. -/
def LedgerInv (s : DbState) : Prop := VoteIdsOk s ∧ CountersOk s

lemma findSplit {α : Type} {p : α → Bool} {l : List α} {a : α}
    (h : l.find? p = some a) :
    ∃ l₁ l₂, l = l₁ ++ a :: l₂ ∧ ∀ b ∈ l₁, p b = false := by
  induction l with
  | nil => simp at h
  | cons x xs ih =>
    cases hx : p x with
    | true =>
        rw [List.find?_cons_of_pos _ hx] at h
        cases h
        exact ⟨[], xs, rfl, by simp⟩
    | false =>
        rw [List.find?_cons_of_neg _ (by simp [hx])] at h
        obtain ⟨l₁, l₂, rfl, hfree⟩ := ih h
        refine ⟨x :: l₁, l₂, rfl, ?_⟩
        intro b hb
        rcases List.mem_cons.mp hb with rfl | hb
        · exact hx
        · exact hfree b hb

lemma findFeedback_mem {s : DbState} {fid : Nat} {fb : FeedbackRow}
    (h : findFeedback s fid = some fb) : fb ∈ s.feedback ∧ fb.id = fid := by
  refine ⟨List.mem_of_find?_eq_some h, ?_⟩
  have := List.find?_some h
  simpa using this

lemma lookupVote_mem {s : DbState} {fid : Nat} {em : Option String} {ip : String}
    {ex : VoteRow} (h : lookupVote s fid em ip = some ex) :
    ex ∈ s.votes ∧ ex.feedbackId = fid := by
  refine ⟨List.mem_of_find?_eq_some h, ?_⟩
  have hp := List.find?_some h
  unfold identLookupP at hp
  have := (Bool.and_eq_true _ _).mp hp |>.1
  simpa using this

lemma voteSplit {s : DbState} (hPW : s.votes.Pairwise (fun a b => a.id ≠ b.id))
    {p : VoteRow → Bool} {ex : VoteRow} (h : s.votes.find? p = some ex) :
    ∃ l₁ l₂, s.votes = l₁ ++ ex :: l₂ ∧ (∀ b ∈ l₁, p b = false) ∧
      (∀ b ∈ l₁, b.id ≠ ex.id) ∧ ∀ b ∈ l₂, b.id ≠ ex.id := by
  obtain ⟨l₁, l₂, heq, hfree⟩ := findSplit h
  rw [heq] at hPW
  rw [List.pairwise_append] at hPW
  obtain ⟨_, hPW2, hcross⟩ := hPW
  rw [List.pairwise_cons] at hPW2
  refine ⟨l₁, l₂, heq, hfree, ?_, ?_⟩
  · intro b hb
    exact hcross b hb ex (List.mem_cons_self ex l₂)
  · intro b hb
    exact fun hbid => (hPW2.1 b hb) hbid.symm

lemma mapUpdEq {l : List VoteRow} {vid : Nat} (vt : VoteType)
    (hne : ∀ b ∈ l, b.id ≠ vid) :
    l.map (fun v => if v.id == vid then { v with voteType := vt } else v) = l := by
  induction l with
  | nil => rfl
  | cons x xs ih =>
    have hx : (x.id == vid) = false := by
      simpa using hne x (List.mem_cons_self x xs)
    simp only [List.map_cons, hx, Bool.false_eq_true, if_false]
    rw [ih (fun b hb => hne b (List.mem_cons_of_mem x hb))]

lemma filterNeEq {l : List VoteRow} {vid : Nat} (hne : ∀ b ∈ l, b.id ≠ vid) :
    l.filter (fun v => !(v.id == vid)) = l := by
  induction l with
  | nil => rfl
  | cons x xs ih =>
    have hx : (x.id == vid) = false := by
      simpa using hne x (List.mem_cons_self x xs)
    simp only [List.filter_cons, hx, Bool.not_false, if_true]
    rw [ih (fun b hb => hne b (List.mem_cons_of_mem x hb))]

lemma setVoteTypeById_votes {s : DbState} {ex : VoteRow} {l₁ l₂ : List VoteRow}
    (hsplit : s.votes = l₁ ++ ex :: l₂)
    (h₁ : ∀ b ∈ l₁, b.id ≠ ex.id) (h₂ : ∀ b ∈ l₂, b.id ≠ ex.id) (vt : VoteType) :
    (setVoteTypeById s ex.id vt).votes = l₁ ++ { ex with voteType := vt } :: l₂ := by
  unfold setVoteTypeById
  simp only [hsplit, List.map_append, List.map_cons]
  rw [mapUpdEq vt h₁, mapUpdEq vt h₂]
  simp

lemma deleteVoteById_votes {s : DbState} {ex : VoteRow} {l₁ l₂ : List VoteRow}
    (hsplit : s.votes = l₁ ++ ex :: l₂)
    (h₁ : ∀ b ∈ l₁, b.id ≠ ex.id) (h₂ : ∀ b ∈ l₂, b.id ≠ ex.id) :
    (deleteVoteById s ex.id).votes = l₁ ++ l₂ := by
  unfold deleteVoteById
  simp only [hsplit, List.filter_append, List.filter_cons]
  rw [filterNeEq h₁, filterNeEq h₂]
  simp

lemma voteIdsOk_updateCounts {s : DbState} {fid : Nat} {up down : Option Int} {now : Int} :
    VoteIdsOk (updateCountsById s fid up down now) ↔ VoteIdsOk s := Iff.rfl

lemma countUp_updateCounts {s : DbState} {fid fid0 : Nat} {up down : Option Int} {now : Int} :
    countUp (updateCountsById s fid up down now) fid0 = countUp s fid0 := rfl

lemma countDown_updateCounts {s : DbState} {fid fid0 : Nat} {up down : Option Int} {now : Int} :
    countDown (updateCountsById s fid up down now) fid0 = countDown s fid0 := rfl

lemma mem_updateCounts {s : DbState} {fid : Nat} {up down : Option Int} {now : Int}
    {f' : FeedbackRow} (h : f' ∈ (updateCountsById s fid up down now).feedback) :
    ∃ f ∈ s.feedback, f' = if f.id == fid then
      { f with upvotes := up.getD f.upvotes, downvotes := down.getD f.downvotes,
               updatedAt := now }
    else f := by
  unfold updateCountsById at h
  simp only [List.mem_map] at h
  obtain ⟨f, hf, heq⟩ := h
  exact ⟨f, hf, heq.symm⟩

lemma insertCaseInv {s : DbState} {fid : Nat} {em : Option String} {ip : String}
    {now : Int} {fb : FeedbackRow} (vt : VoteType)
    (hInv : LedgerInv s) (hfb : findFeedback s fid = some fb) :
    LedgerInv (if vt = VoteType.up
      then updateCountsById
        { s with votes := s.votes ++ [mkVoteRow s fid em ip vt now],
                 nextVoteId := s.nextVoteId + 1 } fid (some (fb.upvotes + 1)) none now
      else updateCountsById
        { s with votes := s.votes ++ [mkVoteRow s fid em ip vt now],
                 nextVoteId := s.nextVoteId + 1 } fid none (some (fb.downvotes + 1)) now) := by
  obtain ⟨⟨hPW, hBound⟩, hCO⟩ := hInv
  obtain ⟨hfbMem, hfbId⟩ := findFeedback_mem hfb
  have hfbUp := (hCO fb hfbMem).1
  have hfbDown := (hCO fb hfbMem).2
  rw [hfbId] at hfbUp hfbDown
  have hIds : VoteIdsOk
      { s with votes := s.votes ++ [mkVoteRow s fid em ip vt now],
               nextVoteId := s.nextVoteId + 1 } := by
    constructor
    · rw [List.pairwise_append]
      refine ⟨hPW, by simp, ?_⟩
      intro a ha b hb
      simp only [List.mem_singleton] at hb
      subst hb
      have := hBound a ha
      simp only [mkVoteRow]
      omega
    · intro v hv
      show v.id < s.nextVoteId + 1
      rcases List.mem_append.mp hv with h | h
      · have := hBound v h
        omega
      · simp only [List.mem_singleton] at h
        subst h
        simp [mkVoteRow]
  have hCUp : ∀ fid0, countUp
      { s with votes := s.votes ++ [mkVoteRow s fid em ip vt now],
               nextVoteId := s.nextVoteId + 1 } fid0
      = countUp s fid0 + (if fid0 = fid ∧ vt = VoteType.up then 1 else 0) := by
    intro fid0
    unfold countUp
    simp only [List.countP_append, List.countP_cons, List.countP_nil]
    congr 1
    simp only [upVoteP, mkVoteRow]
    by_cases h1 : fid0 = fid
    · by_cases h2 : vt = VoteType.up <;> simp [h1, h2, beq_iff_eq]
    · simp [beq_iff_eq, Ne.symm h1, h1]
  have hCDown : ∀ fid0, countDown
      { s with votes := s.votes ++ [mkVoteRow s fid em ip vt now],
               nextVoteId := s.nextVoteId + 1 } fid0
      = countDown s fid0 + (if fid0 = fid ∧ vt = VoteType.down then 1 else 0) := by
    intro fid0
    unfold countDown
    simp only [List.countP_append, List.countP_cons, List.countP_nil]
    congr 1
    simp only [downVoteP, mkVoteRow]
    by_cases h1 : fid0 = fid
    · by_cases h2 : vt = VoteType.down <;> simp [h1, h2, beq_iff_eq]
    · simp [beq_iff_eq, Ne.symm h1, h1]
  cases vt with
  | up =>
    have hCUpF : ∀ fid0, countUp
        { s with votes := s.votes ++ [mkVoteRow s fid em ip VoteType.up now],
                 nextVoteId := s.nextVoteId + 1 } fid0
        = countUp s fid0 + (if fid0 = fid then 1 else 0) := by
      intro fid0
      rw [hCUp fid0]
      by_cases h1 : fid0 = fid <;> simp [h1]
    have hCDownF : ∀ fid0, countDown
        { s with votes := s.votes ++ [mkVoteRow s fid em ip VoteType.up now],
                 nextVoteId := s.nextVoteId + 1 } fid0
        = countDown s fid0 := by
      intro fid0
      rw [hCDown fid0]
      simp
    simp only [↓reduceIte]
    refine ⟨(voteIdsOk_updateCounts).mpr hIds, ?_⟩
    intro f' hf'
    obtain ⟨f, hf, hfeq⟩ := mem_updateCounts hf'
    have hfUp := (hCO f hf).1
    have hfDown := (hCO f hf).2
    by_cases hid : f.id = fid
    · rw [if_pos (by simpa using hid)] at hfeq
      subst hfeq
      rw [hid] at hfDown
      constructor
      · show fb.upvotes + 1 = _
        rw [countUp_updateCounts]
        show _ = ((countUp
          { s with votes := s.votes ++ [mkVoteRow s fid em ip VoteType.up now],
                   nextVoteId := s.nextVoteId + 1 } f.id : Nat) : Int)
        rw [hid, hCUpF fid]
        simp only [if_pos rfl, hfbUp]
        push_cast
        ring
      · show f.downvotes = _
        rw [countDown_updateCounts]
        show _ = ((countDown
          { s with votes := s.votes ++ [mkVoteRow s fid em ip VoteType.up now],
                   nextVoteId := s.nextVoteId + 1 } f.id : Nat) : Int)
        rw [hid, hCDownF fid, hfDown]
    · rw [if_neg (by simpa using hid)] at hfeq
      rw [hfeq]
      rw [countUp_updateCounts, countDown_updateCounts, hCUpF f.id, hCDownF f.id]
      rw [if_neg hid]
      simpa using ⟨hfUp, hfDown⟩
  | down =>
    have hCUpF : ∀ fid0, countUp
        { s with votes := s.votes ++ [mkVoteRow s fid em ip VoteType.down now],
                 nextVoteId := s.nextVoteId + 1 } fid0
        = countUp s fid0 := by
      intro fid0
      rw [hCUp fid0]
      simp
    have hCDownF : ∀ fid0, countDown
        { s with votes := s.votes ++ [mkVoteRow s fid em ip VoteType.down now],
                 nextVoteId := s.nextVoteId + 1 } fid0
        = countDown s fid0 + (if fid0 = fid then 1 else 0) := by
      intro fid0
      rw [hCDown fid0]
      by_cases h1 : fid0 = fid <;> simp [h1]
    rw [if_neg (show ¬ (VoteType.down = VoteType.up) by decide)]
    refine ⟨(voteIdsOk_updateCounts).mpr hIds, ?_⟩
    intro f' hf'
    obtain ⟨f, hf, hfeq⟩ := mem_updateCounts hf'
    have hfUp := (hCO f hf).1
    have hfDown := (hCO f hf).2
    by_cases hid : f.id = fid
    · rw [if_pos (by simpa using hid)] at hfeq
      subst hfeq
      rw [hid] at hfUp
      constructor
      · show f.upvotes = _
        rw [countUp_updateCounts]
        show _ = ((countUp
          { s with votes := s.votes ++ [mkVoteRow s fid em ip VoteType.down now],
                   nextVoteId := s.nextVoteId + 1 } f.id : Nat) : Int)
        rw [hid, hCUpF fid, hfUp]
      · show fb.downvotes + 1 = _
        rw [countDown_updateCounts]
        show _ = ((countDown
          { s with votes := s.votes ++ [mkVoteRow s fid em ip VoteType.down now],
                   nextVoteId := s.nextVoteId + 1 } f.id : Nat) : Int)
        rw [hid, hCDownF fid]
        simp only [if_pos rfl, hfbDown]
        push_cast
        ring
    · rw [if_neg (by simpa using hid)] at hfeq
      rw [hfeq]
      rw [countUp_updateCounts, countDown_updateCounts, hCUpF f.id, hCDownF f.id]
      rw [if_neg hid]
      simpa using ⟨hfUp, hfDown⟩

lemma votePredUpdIdemId (ex : VoteRow) (vt : VoteType) :
    ∀ v : VoteRow, ((if v.id == ex.id then { v with voteType := vt } else v) : VoteRow).id = v.id := by
  intro v
  by_cases h : (v.id == ex.id) = true <;> simp [h]

lemma voteIdsOk_setVoteType {s : DbState} (ex : VoteRow) (vt : VoteType)
    (hPW : s.votes.Pairwise (fun a b => a.id ≠ b.id))
    (hBound : ∀ v ∈ s.votes, v.id < s.nextVoteId) :
    VoteIdsOk (setVoteTypeById s ex.id vt) := by
  constructor
  · show ((setVoteTypeById s ex.id vt).votes).Pairwise _
    unfold setVoteTypeById
    dsimp only
    rw [List.pairwise_map]
    simp only [votePredUpdIdemId ex vt]
    exact hPW
  · intro v hv'
    unfold setVoteTypeById at hv'
    dsimp only at hv'
    rw [List.mem_map] at hv'
    obtain ⟨u, hu, rfl⟩ := hv'
    have := hBound u hu
    show _ < s.nextVoteId
    rw [votePredUpdIdemId ex vt u]
    exact this

lemma flipCaseInv {s : DbState} {fid : Nat} {em : Option String} {ip : String}
    {now : Int} {fb : FeedbackRow} {ex : VoteRow} {vt : VoteType}
    (hInv : LedgerInv s) (hfb : findFeedback s fid = some fb)
    (hex : lookupVote s fid em ip = some ex) (hne : ex.voteType ≠ vt) :
    LedgerInv (updateCountsById (setVoteTypeById s ex.id vt) fid
      (some (fb.upvotes + (if vt = VoteType.up then 1 else -1)))
      (some (fb.downvotes + (if vt = VoteType.down then 1 else -1))) now) := by
  obtain ⟨⟨hPW, hBound⟩, hCO⟩ := hInv
  obtain ⟨hfbMem, hfbId⟩ := findFeedback_mem hfb
  obtain ⟨hexMem, hexFid⟩ := lookupVote_mem hex
  have hfbUp := (hCO fb hfbMem).1
  have hfbDown := (hCO fb hfbMem).2
  rw [hfbId] at hfbUp hfbDown
  obtain ⟨l₁, l₂, hsplit, hfree, h₁, h₂⟩ := voteSplit hPW hex
  have hv : (setVoteTypeById s ex.id vt).votes = l₁ ++ { ex with voteType := vt } :: l₂ :=
    setVoteTypeById_votes hsplit h₁ h₂ vt
  have hIds := voteIdsOk_setVoteType ex vt hPW hBound
  cases vt with
  | up =>
    have hexDown : ex.voteType = VoteType.down := by
      cases hvt : ex.voteType
      · exact absurd hvt hne
      · rfl
    have hCUp : ∀ fid0, countUp (setVoteTypeById s ex.id VoteType.up) fid0
        = countUp s fid0 + (if fid0 = fid then 1 else 0) := by
      intro fid0
      show (setVoteTypeById s ex.id VoteType.up).votes.countP _
        = s.votes.countP _ + _
      rw [hv, hsplit]
      simp only [List.countP_append, List.countP_cons]
      by_cases hf0 : fid0 = fid
      · subst hf0
        simp [upVoteP, hexFid, hexDown, beq_iff_eq]
        omega
      · have : (ex.feedbackId == fid0) = false := by
          simp [beq_iff_eq, hexFid]
          exact fun h => hf0 h.symm
        simp [upVoteP, this, hf0]
    have hCDown : ∀ fid0, countDown s fid0
        = countDown (setVoteTypeById s ex.id VoteType.up) fid0 + (if fid0 = fid then 1 else 0) := by
      intro fid0
      show s.votes.countP _
        = (setVoteTypeById s ex.id VoteType.up).votes.countP _ + _
      rw [hv, hsplit]
      simp only [List.countP_append, List.countP_cons]
      by_cases hf0 : fid0 = fid
      · subst hf0
        simp [downVoteP, hexFid, hexDown, beq_iff_eq]
        omega
      · have : (ex.feedbackId == fid0) = false := by
          simp [beq_iff_eq, hexFid]
          exact fun h => hf0 h.symm
        simp [downVoteP, this, hf0]
    rw [if_pos (show VoteType.up = VoteType.up from rfl),
        if_neg (show ¬ (VoteType.up = VoteType.down) by decide)]
    refine ⟨(voteIdsOk_updateCounts).mpr hIds, ?_⟩
    intro f' hf'
    obtain ⟨f, hf, hfeq⟩ := mem_updateCounts hf'
    have hfUp := (hCO f hf).1
    have hfDown := (hCO f hf).2
    by_cases hid : f.id = fid
    · rw [if_pos (by simpa using hid)] at hfeq
      subst hfeq
      constructor
      · show fb.upvotes + 1 = _
        rw [countUp_updateCounts]
        show _ = ((countUp (setVoteTypeById s ex.id VoteType.up) f.id : Nat) : Int)
        rw [hid, hCUp fid, if_pos rfl, hfbUp]
        push_cast
        ring
      · show fb.downvotes + (-1) = _
        rw [countDown_updateCounts]
        show _ = ((countDown (setVoteTypeById s ex.id VoteType.up) f.id : Nat) : Int)
        have := hCDown fid
        rw [if_pos rfl] at this
        rw [hid]
        rw [hfbDown]
        have hcast : (countDown s fid : Int)
            = (countDown (setVoteTypeById s ex.id VoteType.up) fid : Int) + 1 := by
          exact_mod_cast congrArg (Nat.cast : Nat → Int) this
        omega
    · rw [if_neg (by simpa using hid)] at hfeq
      rw [hfeq]
      rw [countUp_updateCounts, countDown_updateCounts, hCUp f.id, if_neg hid]
      have := hCDown f.id
      rw [if_neg hid] at this
      simp only [Nat.add_zero] at this
      rw [← this]
      simpa using ⟨hfUp, hfDown⟩
  | down =>
    have hexUp : ex.voteType = VoteType.up := by
      cases hvt : ex.voteType
      · rfl
      · exact absurd hvt hne
    have hCDown : ∀ fid0, countDown (setVoteTypeById s ex.id VoteType.down) fid0
        = countDown s fid0 + (if fid0 = fid then 1 else 0) := by
      intro fid0
      show (setVoteTypeById s ex.id VoteType.down).votes.countP _
        = s.votes.countP _ + _
      rw [hv, hsplit]
      simp only [List.countP_append, List.countP_cons]
      by_cases hf0 : fid0 = fid
      · subst hf0
        simp [downVoteP, hexFid, hexUp, beq_iff_eq]
        omega
      · have : (ex.feedbackId == fid0) = false := by
          simp [beq_iff_eq, hexFid]
          exact fun h => hf0 h.symm
        simp [downVoteP, this, hf0]
    have hCUp : ∀ fid0, countUp s fid0
        = countUp (setVoteTypeById s ex.id VoteType.down) fid0 + (if fid0 = fid then 1 else 0) := by
      intro fid0
      show s.votes.countP _
        = (setVoteTypeById s ex.id VoteType.down).votes.countP _ + _
      rw [hv, hsplit]
      simp only [List.countP_append, List.countP_cons]
      by_cases hf0 : fid0 = fid
      · subst hf0
        simp [upVoteP, hexFid, hexUp, beq_iff_eq]
        omega
      · have : (ex.feedbackId == fid0) = false := by
          simp [beq_iff_eq, hexFid]
          exact fun h => hf0 h.symm
        simp [upVoteP, this, hf0]
    rw [if_neg (show ¬ (VoteType.down = VoteType.up) by decide),
        if_pos (show VoteType.down = VoteType.down from rfl)]
    refine ⟨(voteIdsOk_updateCounts).mpr hIds, ?_⟩
    intro f' hf'
    obtain ⟨f, hf, hfeq⟩ := mem_updateCounts hf'
    have hfUp := (hCO f hf).1
    have hfDown := (hCO f hf).2
    by_cases hid : f.id = fid
    · rw [if_pos (by simpa using hid)] at hfeq
      subst hfeq
      constructor
      · show fb.upvotes + (-1) = _
        rw [countUp_updateCounts]
        show _ = ((countUp (setVoteTypeById s ex.id VoteType.down) f.id : Nat) : Int)
        have := hCUp fid
        rw [if_pos rfl] at this
        rw [hid]
        rw [hfbUp]
        have hcast : (countUp s fid : Int)
            = (countUp (setVoteTypeById s ex.id VoteType.down) fid : Int) + 1 := by
          exact_mod_cast congrArg (Nat.cast : Nat → Int) this
        omega
      · show fb.downvotes + 1 = _
        rw [countDown_updateCounts]
        show _ = ((countDown (setVoteTypeById s ex.id VoteType.down) f.id : Nat) : Int)
        rw [hid, hCDown fid, if_pos rfl, hfbDown]
        push_cast
        ring
    · rw [if_neg (by simpa using hid)] at hfeq
      rw [hfeq]
      rw [countUp_updateCounts, countDown_updateCounts, hCDown f.id, if_neg hid]
      have := hCUp f.id
      rw [if_neg hid] at this
      simp only [Nat.add_zero] at this
      rw [← this]
      simpa using ⟨hfUp, hfDown⟩

lemma voteIdsOk_delete {s : DbState} (vid : Nat)
    (hPW : s.votes.Pairwise (fun a b => a.id ≠ b.id))
    (hBound : ∀ v ∈ s.votes, v.id < s.nextVoteId) :
    VoteIdsOk (deleteVoteById s vid) := by
  constructor
  · show ((deleteVoteById s vid).votes).Pairwise _
    unfold deleteVoteById
    dsimp only
    exact hPW.sublist (List.filter_sublist s.votes)
  · intro v hv
    unfold deleteVoteById at hv
    dsimp only at hv
    rw [List.mem_filter] at hv
    exact hBound v hv.1

lemma removeCaseInv {s : DbState} {fid : Nat} {em : Option String} {ip : String}
    {now : Int} {fb : FeedbackRow} {ex : VoteRow}
    (hInv : LedgerInv s) (hfb : findFeedback s fid = some fb)
    (hex : lookupVote s fid em ip = some ex) :
    LedgerInv (if ex.voteType = VoteType.up
      then updateCountsById (deleteVoteById s ex.id) fid (some (fb.upvotes - 1)) none now
      else updateCountsById (deleteVoteById s ex.id) fid none (some (fb.downvotes - 1)) now) := by
  obtain ⟨⟨hPW, hBound⟩, hCO⟩ := hInv
  obtain ⟨hfbMem, hfbId⟩ := findFeedback_mem hfb
  obtain ⟨hexMem, hexFid⟩ := lookupVote_mem hex
  have hfbUp := (hCO fb hfbMem).1
  have hfbDown := (hCO fb hfbMem).2
  rw [hfbId] at hfbUp hfbDown
  obtain ⟨l₁, l₂, hsplit, hfree, h₁, h₂⟩ := voteSplit hPW hex
  have hv : (deleteVoteById s ex.id).votes = l₁ ++ l₂ :=
    deleteVoteById_votes hsplit h₁ h₂
  have hIds := voteIdsOk_delete ex.id hPW hBound
  cases hvt : ex.voteType with
  | up =>
    have hCUp : ∀ fid0, countUp s fid0
        = countUp (deleteVoteById s ex.id) fid0 + (if fid0 = fid then 1 else 0) := by
      intro fid0
      show s.votes.countP _ = (deleteVoteById s ex.id).votes.countP _ + _
      rw [hv, hsplit]
      simp only [List.countP_append, List.countP_cons]
      by_cases hf0 : fid0 = fid
      · subst hf0
        simp [upVoteP, hexFid, hvt, beq_iff_eq]
        omega
      · have : (ex.feedbackId == fid0) = false := by
          simp [beq_iff_eq, hexFid]
          exact fun h => hf0 h.symm
        simp [upVoteP, this, hf0]
    have hCDown : ∀ fid0, countDown (deleteVoteById s ex.id) fid0 = countDown s fid0 := by
      intro fid0
      show (deleteVoteById s ex.id).votes.countP _ = s.votes.countP _
      rw [hv, hsplit]
      simp only [List.countP_append, List.countP_cons]
      have : downVoteP fid0 ex = false := by
        simp [downVoteP, hvt]
      simp [this]
    rw [if_pos rfl]
    refine ⟨(voteIdsOk_updateCounts).mpr hIds, ?_⟩
    intro f' hf'
    obtain ⟨f, hf, hfeq⟩ := mem_updateCounts hf'
    have hfUp := (hCO f hf).1
    have hfDown := (hCO f hf).2
    by_cases hid : f.id = fid
    · rw [if_pos (by simpa using hid)] at hfeq
      subst hfeq
      constructor
      · show fb.upvotes - 1 = _
        rw [countUp_updateCounts]
        show _ = ((countUp (deleteVoteById s ex.id) f.id : Nat) : Int)
        have := hCUp fid
        rw [if_pos rfl] at this
        rw [hid, hfbUp]
        have hcast : (countUp s fid : Int)
            = (countUp (deleteVoteById s ex.id) fid : Int) + 1 := by
          exact_mod_cast congrArg (Nat.cast : Nat → Int) this
        omega
      · show f.downvotes = _
        rw [countDown_updateCounts]
        show _ = ((countDown (deleteVoteById s ex.id) f.id : Nat) : Int)
        rw [hid, hCDown fid]
        rw [hid] at hfDown
        exact hfDown
    · rw [if_neg (by simpa using hid)] at hfeq
      rw [hfeq]
      rw [countUp_updateCounts, countDown_updateCounts, hCDown f.id]
      have := hCUp f.id
      rw [if_neg hid] at this
      simp only [Nat.add_zero] at this
      rw [← this]
      exact ⟨hfUp, hfDown⟩
  | down =>
    have hCDown : ∀ fid0, countDown s fid0
        = countDown (deleteVoteById s ex.id) fid0 + (if fid0 = fid then 1 else 0) := by
      intro fid0
      show s.votes.countP _ = (deleteVoteById s ex.id).votes.countP _ + _
      rw [hv, hsplit]
      simp only [List.countP_append, List.countP_cons]
      by_cases hf0 : fid0 = fid
      · subst hf0
        simp [downVoteP, hexFid, hvt, beq_iff_eq]
        omega
      · have : (ex.feedbackId == fid0) = false := by
          simp [beq_iff_eq, hexFid]
          exact fun h => hf0 h.symm
        simp [downVoteP, this, hf0]
    have hCUp : ∀ fid0, countUp (deleteVoteById s ex.id) fid0 = countUp s fid0 := by
      intro fid0
      show (deleteVoteById s ex.id).votes.countP _ = s.votes.countP _
      rw [hv, hsplit]
      simp only [List.countP_append, List.countP_cons]
      have : upVoteP fid0 ex = false := by
        simp [upVoteP, hvt]
      simp [this]
    rw [if_neg (show ¬ (VoteType.down = VoteType.up) by decide)]
    refine ⟨(voteIdsOk_updateCounts).mpr hIds, ?_⟩
    intro f' hf'
    obtain ⟨f, hf, hfeq⟩ := mem_updateCounts hf'
    have hfUp := (hCO f hf).1
    have hfDown := (hCO f hf).2
    by_cases hid : f.id = fid
    · rw [if_pos (by simpa using hid)] at hfeq
      subst hfeq
      constructor
      · show f.upvotes = _
        rw [countUp_updateCounts]
        show _ = ((countUp (deleteVoteById s ex.id) f.id : Nat) : Int)
        rw [hid, hCUp fid]
        rw [hid] at hfUp
        exact hfUp
      · show fb.downvotes - 1 = _
        rw [countDown_updateCounts]
        show _ = ((countDown (deleteVoteById s ex.id) f.id : Nat) : Int)
        have := hCDown fid
        rw [if_pos rfl] at this
        rw [hid, hfbDown]
        have hcast : (countDown s fid : Int)
            = (countDown (deleteVoteById s ex.id) fid : Int) + 1 := by
          exact_mod_cast congrArg (Nat.cast : Nat → Int) this
        omega
    · rw [if_neg (by simpa using hid)] at hfeq
      rw [hfeq]
      rw [countUp_updateCounts, countDown_updateCounts, hCUp f.id]
      have := hCDown f.id
      rw [if_neg hid] at this
      simp only [Nat.add_zero] at this
      rw [← this]
      exact ⟨hfUp, hfDown⟩

lemma castVoteInv {s : DbState} (fid : Nat) (key em : Option String) (ip : String)
    (vt : VoteType) (now : Int) (hInv : LedgerInv s) :
    LedgerInv (castVote s fid key em ip vt now).1 := by
  unfold castVote
  split
  · exact hInv
  split
  · exact hInv
  next key' =>
  split
  · exact hInv
  next fb hfb =>
  split
  · exact hInv
  next w hw =>
  split
  next ex hex =>
    split
    next hne =>
      dsimp only
      exact flipCaseInv ⟨⟨hInv.1.1, hInv.1.2⟩, hInv.2⟩ hfb hex hne
    next hne => exact hInv
  next hex =>
    dsimp only
    split
    next hok =>
      exact insertCaseInv vt hInv hfb
    next hok => exact hInv

lemma removeVoteInv {s : DbState} (fid : Nat) (key em : Option String) (ip : String)
    (now : Int) (hInv : LedgerInv s) :
    LedgerInv (removeVote s fid key em ip now).1 := by
  unfold removeVote
  split
  · exact hInv
  split
  · exact hInv
  next key' =>
  split
  · exact hInv
  next fb hfb =>
  split
  · exact hInv
  next w hw =>
  split
  next hex => exact hInv
  next ex hex =>
    dsimp only
    exact removeCaseInv hInv hfb hex

/-- One completed request against the vote ledger. -/
inductive LedgerOp where
  | cast (fid : Nat) (apiKey voterEmail : Option String) (ip : String)
      (vt : VoteType) (now : Int)
  | remove (fid : Nat) (apiKey voterEmail : Option String) (ip : String) (now : Int)

/-- The state left behind by one completed vote request. -/
def applyLedgerOp (s : DbState) : LedgerOp → DbState
  | LedgerOp.cast fid key em ip vt now => (castVote s fid key em ip vt now).1
  | LedgerOp.remove fid key em ip now => (removeVote s fid key em ip now).1

/-- The state after a sequence of completed vote requests. -/
def applyLedgerOps (s : DbState) (ops : List LedgerOp) : DbState :=
  ops.foldl applyLedgerOp s

lemma applyLedgerOpInv {s : DbState} (op : LedgerOp) (h : LedgerInv s) :
    LedgerInv (applyLedgerOp s op) := by
  cases op with
  | cast fid key em ip vt now => exact castVoteInv fid key em ip vt now h
  | remove fid key em ip now => exact removeVoteInv fid key em ip now h

lemma applyLedgerOpsInv {s : DbState} {ops : List LedgerOp} (h : LedgerInv s) :
    LedgerInv (applyLedgerOps s ops) := by
  induction ops generalizing s with
  | nil => exact h
  | cons op ops ih => exact ih (applyLedgerOpInv op h)

instance : DecidablePred LedgerInv := fun s => by
  unfold LedgerInv VoteIdsOk CountersOk
  infer_instance

/-- C1: Counter-ledger consistency: for every feedback item, after any
sequence of completed castVote (POST /api/feedback/{id}/vote) and removeVote
(DELETE /api/feedback/{id}/vote) operations, the item's denormalized upvotes
counter equals the number of Vote rows of type up for that item and its
downvotes counter equals the number of Vote rows of type down, and both
counters are non-negative integers. -/
theorem counter_ledger_consistency (s : DbState) (ops : List LedgerOp)
    (hInv : LedgerInv s) :
    ∀ f ∈ (applyLedgerOps s ops).feedback,
      f.upvotes = (countUp (applyLedgerOps s ops) f.id : Int) ∧
      f.downvotes = (countDown (applyLedgerOps s ops) f.id : Int) ∧
      0 ≤ f.upvotes ∧ 0 ≤ f.downvotes := by
  intro f hf
  have h := (applyLedgerOpsInv hInv).2 f hf
  refine ⟨h.1, h.2, ?_, ?_⟩
  · rw [h.1]
    exact Int.natCast_nonneg _
  · rw [h.2]
    exact Int.natCast_nonneg _

/-- A one-website, one-item store with consistent (zero) counters. -/
def c1State : DbState :=
  { websites := [{ id := 1, apiKey := "key1" }],
    feedback := [{ id := 1, websiteId := 1 }],
    nextFeedbackId := 2 }

/-- Insert, insert from a second voter, flip, and remove. -/
def c1Ops : List LedgerOp :=
  [LedgerOp.cast 1 (some "key1") none "1.1.1.1" VoteType.up 10,
   LedgerOp.cast 1 (some "key1") (some "a@b.c") "2.2.2.2" VoteType.down 11,
   LedgerOp.cast 1 (some "key1") none "1.1.1.1" VoteType.down 12,
   LedgerOp.remove 1 (some "key1") (some "a@b.c") "3.3.3.3" 13]

theorem counter_ledger_consistency_witness :
    LedgerInv c1State ∧
      ∀ f ∈ (applyLedgerOps c1State c1Ops).feedback,
        f.upvotes = (countUp (applyLedgerOps c1State c1Ops) f.id : Int) ∧
        f.downvotes = (countDown (applyLedgerOps c1State c1Ops) f.id : Int) ∧
        0 ≤ f.upvotes ∧ 0 ≤ f.downvotes :=
  ⟨by decide, counter_ledger_consistency c1State c1Ops (by decide)⟩

/-- The two unique indexes of the FeedbackVotes table as a state predicate:
at most one row per (feedbackId, voterIp) and per (feedbackId, non-null
voterEmail). -/
def VoteKeysOk (s : DbState) : Prop :=
  s.votes.Pairwise (fun a b =>
    ¬(a.feedbackId = b.feedbackId ∧ a.voterIp = b.voterIp) ∧
    ¬(a.feedbackId = b.feedbackId ∧ a.voterEmail.isSome ∧ a.voterEmail = b.voterEmail))

lemma identLookupP_facts {fid : Nat} {em : Option String} {ip : String} {v : VoteRow}
    (h : identLookupP fid em ip v = true) :
    v.feedbackId = fid ∧ (match em with
      | some e => v.voterEmail = some e
      | none => v.voterIp = ip) := by
  unfold identLookupP at h
  rw [Bool.and_eq_true] at h
  refine ⟨by simpa using h.1, ?_⟩
  cases em with
  | some e => simpa using h.2
  | none => simpa using h.2

lemma identLookupP_unique {fid : Nat} {em : Option String} {ip : String} {a b : VoteRow}
    (ha : identLookupP fid em ip a = true) (hb : identLookupP fid em ip b = true)
    (hab : ¬(a.feedbackId = b.feedbackId ∧ a.voterIp = b.voterIp) ∧
      ¬(a.feedbackId = b.feedbackId ∧ a.voterEmail.isSome ∧ a.voterEmail = b.voterEmail)) :
    False := by
  obtain ⟨haf, ha2⟩ := identLookupP_facts ha
  obtain ⟨hbf, hb2⟩ := identLookupP_facts hb
  cases em with
  | some e =>
      exact hab.2 ⟨haf.trans hbf.symm, by rw [ha2]; rfl, ha2.trans hb2.symm⟩
  | none =>
      exact hab.1 ⟨haf.trans hbf.symm, ha2.trans hb2.symm⟩

lemma countP_segments_eq_one {p : VoteRow → Bool} {l₁ l₂ : List VoteRow} {ex : VoteRow}
    (hfree : ∀ b ∈ l₁, p b = false) (hex : p ex = true)
    (hl₂ : ∀ b ∈ l₂, p b = false) :
    (l₁ ++ ex :: l₂).countP p = 1 := by
  rw [List.countP_append, List.countP_cons]
  rw [List.countP_eq_zero.mpr (by intro a ha; simp [hfree a ha]),
      List.countP_eq_zero.mpr (by intro a ha; simp [hl₂ a ha])]
  simp [hex]

lemma voteKeys_no_second_match {s : DbState} (hKeys : VoteKeysOk s)
    {fid : Nat} {em : Option String} {ip : String} {ex : VoteRow} {l₁ l₂ : List VoteRow}
    (hsplit : s.votes = l₁ ++ ex :: l₂)
    (hex : identLookupP fid em ip ex = true) :
    ∀ b ∈ l₂, identLookupP fid em ip b = false := by
  intro b hb
  unfold VoteKeysOk at hKeys
  rw [hsplit, List.pairwise_append] at hKeys
  have hrel := (List.pairwise_cons.mp hKeys.2.1).1 b hb
  by_contra hpb
  rw [Bool.not_eq_false] at hpb
  exact identLookupP_unique hex hpb hrel

lemma findFeedback_updateCounts (s : DbState) (fid0 : Nat) (up down : Option Int)
    (now : Int) (fid1 : Nat) :
    findFeedback (updateCountsById s fid0 up down now) fid1
      = (findFeedback s fid1).map (fun f =>
          if f.id == fid0 then
            { f with upvotes := up.getD f.upvotes, downvotes := down.getD f.downvotes,
                     updatedAt := now }
          else f) := by
  unfold findFeedback updateCountsById
  dsimp only
  rw [List.find?_map]
  have hpg : ((fun f : FeedbackRow => f.id == fid1) ∘ (fun f =>
      if f.id == fid0 then
        { f with upvotes := up.getD f.upvotes, downvotes := down.getD f.downvotes,
                 updatedAt := now }
      else f)) = fun f : FeedbackRow => f.id == fid1 := by
    funext f
    by_cases h : (f.id == fid0) = true <;> simp [Function.comp, h]
  rw [hpg]

lemma updFeedback_id (fid0 : Nat) (up down : Option Int) (now : Int) (f : FeedbackRow) :
    ((if f.id == fid0 then
        { f with upvotes := up.getD f.upvotes, downvotes := down.getD f.downvotes,
                 updatedAt := now }
      else f) : FeedbackRow).id = f.id := by
  by_cases h : (f.id == fid0) = true <;> simp [h]

lemma updFeedback_websiteId (fid0 : Nat) (up down : Option Int) (now : Int) (f : FeedbackRow) :
    ((if f.id == fid0 then
        { f with upvotes := up.getD f.upvotes, downvotes := down.getD f.downvotes,
                 updatedAt := now }
      else f) : FeedbackRow).websiteId = f.websiteId := by
  by_cases h : (f.id == fid0) = true <;> simp [h]

lemma identLookupP_mkVoteRow (s : DbState) (fid : Nat) (em : Option String) (ip : String)
    (vt : VoteType) (now : Int) :
    identLookupP fid em ip (mkVoteRow s fid em ip vt now) = true := by
  unfold identLookupP mkVoteRow
  cases em <;> simp

lemma castVote_noop {s : DbState} {fid : Nat} {k : String} {em : Option String}
    {ip : String} {vt : VoteType} {fb : FeedbackRow} {ex : VoteRow} (now : Int)
    (hfid : ¬ fid = 0)
    (hfb : findFeedback s fid = some fb)
    (hver : (verifyApiKey s fb.websiteId k).isSome = true)
    (hex : lookupVote s fid em ip = some ex)
    (hvt : ex.voteType = vt) :
    castVote s fid (some k) em ip vt now = (s, voteCountsResult s fid) := by
  obtain ⟨w, hw⟩ := Option.isSome_iff_exists.mp hver
  unfold castVote
  rw [if_neg hfid]
  simp only [hfb, hex, hw]
  rw [if_neg (by simp [hvt])]

/-- C5: Vote idempotence: for every feedback item and voter identity,
casting the same vote type twice in succession leaves the item's upvote and
downvote counters unchanged from the first cast and leaves exactly one Vote
row for that (item, voter) pair — the repeat cast is a no-op.  The store is
assumed to satisfy the unique indexes and primary-key discipline of the
FeedbackVotes table, and the first cast is assumed to complete with 200. -/
theorem vote_idempotence (s : DbState) (fid : Nat) (key em : Option String)
    (ip : String) (vt : VoteType) (now now2 : Int) (s1 : DbState) (u d : Int)
    (hKeys : VoteKeysOk s)
    (hPW : s.votes.Pairwise (fun a b => a.id ≠ b.id))
    (hcast : castVote s fid key em ip vt now = (s1, VoteOutcome.ok u d)) :
    castVote s1 fid key em ip vt now2 = (s1, VoteOutcome.ok u d) ∧
      s1.votes.countP (identLookupP fid em ip) = 1 := by
  unfold castVote at hcast
  by_cases hfid : fid = 0
  · rw [if_pos hfid] at hcast
    simp at hcast
  rw [if_neg hfid] at hcast
  cases key with
  | none => simp at hcast
  | some k =>
  dsimp only at hcast
  rcases hfb : findFeedback s fid with _ | fb
  · rw [hfb] at hcast
    simp at hcast
  rw [hfb] at hcast
  dsimp only at hcast
  rcases hver : verifyApiKey s fb.websiteId k with _ | w
  · rw [hver] at hcast
    simp at hcast
  rw [hver] at hcast
  dsimp only at hcast
  have hverSome : (verifyApiKey s fb.websiteId k).isSome = true := by
    rw [hver]; rfl
  rcases hex : lookupVote s fid em ip with _ | ex
  · -- new-vote path
    rw [hex] at hcast
    dsimp only at hcast
    by_cases hok : insertRowOk s (mkVoteRow s fid em ip vt now) = true
    · rw [if_pos hok] at hcast
      have hnomatch : ∀ x ∈ s.votes, ¬ identLookupP fid em ip x = true :=
        List.find?_eq_none.mp hex
      cases vt with
      | up =>
          rw [if_pos rfl] at hcast
          rw [Prod.mk.injEq] at hcast
          obtain ⟨hs1, hout⟩ := hcast
          subst hs1
          have hvotes : (updateCountsById
              { s with votes := s.votes ++ [mkVoteRow s fid em ip VoteType.up now],
                       nextVoteId := s.nextVoteId + 1 } fid
              (some (fb.upvotes + 1)) none now).votes
              = s.votes ++ [mkVoteRow s fid em ip VoteType.up now] := rfl
          have hfb1 : findFeedback (updateCountsById
              { s with votes := s.votes ++ [mkVoteRow s fid em ip VoteType.up now],
                       nextVoteId := s.nextVoteId + 1 } fid
              (some (fb.upvotes + 1)) none now) fid
              = some (if fb.id == fid then
                  { fb with upvotes := (some (fb.upvotes + 1)).getD fb.upvotes,
                            downvotes := (none : Option Int).getD fb.downvotes,
                            updatedAt := now }
                else fb) := by
            rw [findFeedback_updateCounts]
            rw [show findFeedback
                { s with votes := s.votes ++ [mkVoteRow s fid em ip VoteType.up now],
                         nextVoteId := s.nextVoteId + 1 } fid = findFeedback s fid from rfl,
              hfb]
            rfl
          have hlook1 : lookupVote (updateCountsById
              { s with votes := s.votes ++ [mkVoteRow s fid em ip VoteType.up now],
                       nextVoteId := s.nextVoteId + 1 } fid
              (some (fb.upvotes + 1)) none now) fid em ip
              = some (mkVoteRow s fid em ip VoteType.up now) := by
            show List.find? _ _ = _
            rw [hvotes, List.find?_append, List.find?_eq_none.mpr hnomatch,
                List.find?_cons_of_pos _ (identLookupP_mkVoteRow s fid em ip VoteType.up now)]
            rfl
          constructor
          · have := castVote_noop now2 hfid hfb1
              (by rw [updFeedback_websiteId]
                  show (verifyApiKey s fb.websiteId k).isSome = true
                  exact hverSome)
              hlook1 (show (mkVoteRow s fid em ip VoteType.up now).voteType = VoteType.up from rfl)
            rw [this, hout]
          · rw [hvotes, List.countP_append,
                List.countP_eq_zero.mpr hnomatch, List.countP_cons]
            simp [identLookupP_mkVoteRow s fid em ip VoteType.up now]
      | down =>
          rw [if_neg (by decide)] at hcast
          rw [Prod.mk.injEq] at hcast
          obtain ⟨hs1, hout⟩ := hcast
          subst hs1
          have hvotes : (updateCountsById
              { s with votes := s.votes ++ [mkVoteRow s fid em ip VoteType.down now],
                       nextVoteId := s.nextVoteId + 1 } fid
              none (some (fb.downvotes + 1)) now).votes
              = s.votes ++ [mkVoteRow s fid em ip VoteType.down now] := rfl
          have hfb1 : findFeedback (updateCountsById
              { s with votes := s.votes ++ [mkVoteRow s fid em ip VoteType.down now],
                       nextVoteId := s.nextVoteId + 1 } fid
              none (some (fb.downvotes + 1)) now) fid
              = some (if fb.id == fid then
                  { fb with upvotes := (none : Option Int).getD fb.upvotes,
                            downvotes := (some (fb.downvotes + 1)).getD fb.downvotes,
                            updatedAt := now }
                else fb) := by
            rw [findFeedback_updateCounts]
            rw [show findFeedback
                { s with votes := s.votes ++ [mkVoteRow s fid em ip VoteType.down now],
                         nextVoteId := s.nextVoteId + 1 } fid = findFeedback s fid from rfl,
              hfb]
            rfl
          have hlook1 : lookupVote (updateCountsById
              { s with votes := s.votes ++ [mkVoteRow s fid em ip VoteType.down now],
                       nextVoteId := s.nextVoteId + 1 } fid
              none (some (fb.downvotes + 1)) now) fid em ip
              = some (mkVoteRow s fid em ip VoteType.down now) := by
            show List.find? _ _ = _
            rw [hvotes, List.find?_append, List.find?_eq_none.mpr hnomatch,
                List.find?_cons_of_pos _ (identLookupP_mkVoteRow s fid em ip VoteType.down now)]
            rfl
          constructor
          · have := castVote_noop now2 hfid hfb1
              (by rw [updFeedback_websiteId]
                  show (verifyApiKey s fb.websiteId k).isSome = true
                  exact hverSome)
              hlook1 (show (mkVoteRow s fid em ip VoteType.down now).voteType = VoteType.down from rfl)
            rw [this, hout]
          · rw [hvotes, List.countP_append,
                List.countP_eq_zero.mpr hnomatch, List.countP_cons]
            simp [identLookupP_mkVoteRow s fid em ip VoteType.down now]
    · rw [if_neg hok] at hcast
      simp at hcast
  · -- existing-vote path
    rw [hex] at hcast
    dsimp only at hcast
    obtain ⟨l₁, l₂, hsplit, hfree, h₁, h₂⟩ := voteSplit hPW hex
    have hexP : identLookupP fid em ip ex = true := List.find?_some hex
    have hl₂ : ∀ b ∈ l₂, identLookupP fid em ip b = false :=
      voteKeys_no_second_match hKeys hsplit hexP
    by_cases hne : ex.voteType ≠ vt
    · -- flip path
      rw [if_pos hne] at hcast
      rw [Prod.mk.injEq] at hcast
      obtain ⟨hs1, hout⟩ := hcast
      subst hs1
      have hv : (setVoteTypeById s ex.id vt).votes
          = l₁ ++ { ex with voteType := vt } :: l₂ :=
        setVoteTypeById_votes hsplit h₁ h₂ vt
      have hvotes : (updateCountsById (setVoteTypeById s ex.id vt) fid
          (some (fb.upvotes + (if vt = VoteType.up then 1 else -1)))
          (some (fb.downvotes + (if vt = VoteType.down then 1 else -1))) now).votes
          = l₁ ++ { ex with voteType := vt } :: l₂ := hv
      have hfb1 : findFeedback (updateCountsById (setVoteTypeById s ex.id vt) fid
          (some (fb.upvotes + (if vt = VoteType.up then 1 else -1)))
          (some (fb.downvotes + (if vt = VoteType.down then 1 else -1))) now) fid
          = some (if fb.id == fid then
              { fb with
                upvotes := (some (fb.upvotes + (if vt = VoteType.up then 1 else -1))).getD fb.upvotes,
                downvotes := (some (fb.downvotes + (if vt = VoteType.down then 1 else -1))).getD fb.downvotes,
                updatedAt := now }
            else fb) := by
        rw [findFeedback_updateCounts]
        rw [show findFeedback (setVoteTypeById s ex.id vt) fid = findFeedback s fid from rfl,
            hfb]
        rfl
      have hexP' : identLookupP fid em ip { ex with voteType := vt } = true := hexP
      have hlook1 : lookupVote (updateCountsById (setVoteTypeById s ex.id vt) fid
          (some (fb.upvotes + (if vt = VoteType.up then 1 else -1)))
          (some (fb.downvotes + (if vt = VoteType.down then 1 else -1))) now) fid em ip
          = some { ex with voteType := vt } := by
        show List.find? _ _ = _
        rw [show (updateCountsById (setVoteTypeById s ex.id vt) fid
          (some (fb.upvotes + (if vt = VoteType.up then 1 else -1)))
          (some (fb.downvotes + (if vt = VoteType.down then 1 else -1))) now).votes
          = l₁ ++ { ex with voteType := vt } :: l₂ from hvotes]
        rw [List.find?_append, List.find?_eq_none.mpr (by intro x hx; simp [hfree x hx]),
            List.find?_cons_of_pos _ hexP']
        rfl
      constructor
      · have := castVote_noop now2 hfid hfb1
          (by rw [updFeedback_websiteId]
              show (verifyApiKey s fb.websiteId k).isSome = true
              exact hverSome)
          hlook1 rfl
        rw [this, hout]
      · rw [hvotes]
        exact countP_segments_eq_one (by intro b hb; exact hfree b hb) hexP' hl₂
    · -- idempotent repeat: no-op already on the first cast
      rw [if_neg hne] at hcast
      rw [Prod.mk.injEq] at hcast
      obtain ⟨hs1, hout⟩ := hcast
      subst hs1
      rw [not_not] at hne
      constructor
      · have := castVote_noop now2 hfid hfb hverSome hex hne
        rw [this, hout]
      · rw [hsplit]
        exact countP_segments_eq_one hfree hexP hl₂

instance : DecidablePred VoteKeysOk := fun s => by
  unfold VoteKeysOk
  infer_instance

/-- A one-website, one-item store with an empty ledger. -/
def c5State : DbState :=
  { websites := [{ id := 1, apiKey := "k" }],
    feedback := [{ id := 1, websiteId := 1 }],
    nextFeedbackId := 2 }

theorem vote_idempotence_witness :
    castVote (castVote c5State 1 (some "k") none "9.9.9.9" VoteType.up 5).1 1 (some "k")
        none "9.9.9.9" VoteType.up 6
      = ((castVote c5State 1 (some "k") none "9.9.9.9" VoteType.up 5).1, VoteOutcome.ok 1 0) ∧
    (castVote c5State 1 (some "k") none "9.9.9.9" VoteType.up 5).1.votes.countP
        (identLookupP 1 none "9.9.9.9") = 1 :=
  vote_idempotence c5State 1 (some "k") none "9.9.9.9" VoteType.up 5 6
    (castVote c5State 1 (some "k") none "9.9.9.9" VoteType.up 5).1 1 0
    (by decide) (by decide) (by decide)

/-- One website, one feedback item with zeroed counters, empty ledger. -/
def c2State : DbState :=
  { websites := [{ id := 1, apiKey := "k" }],
    feedback := [{ id := 1, websiteId := 1 }],
    nextFeedbackId := 2 }

/-- C2 counterexample: the new-vote mutation of POST /api/feedback/{id}/vote
is not one atomic unit.  Its write plan has two separately committed
statements, and the stored state after the first one alone (the state the
database is left in if the handler fails before the counter update) carries
the inserted vote row while the item's upvotes counter still reads 0. -/
theorem vote_cast_not_atomic_counterexample :
    (castVoteWrites c2State 1 none "1.2.3.4" VoteType.up 5).length = 2 ∧
    countUp ((castVoteWrites c2State 1 none "1.2.3.4" VoteType.up 5).take 1
      |>.foldl applyVoteWrite c2State) 1 = 1 ∧
    ((findFeedback ((castVoteWrites c2State 1 none "1.2.3.4" VoteType.up 5).take 1
      |>.foldl applyVoteWrite c2State) 1).map (fun f => f.upvotes)) = some 0 := by
  decide

/-- C2 amended: after validation, castVote issues the vote-row insert and
the counter update as two separate sequential writes with no enclosing
transaction; stopping after the first write leaves the vote row stored with
the old counters still in place, and only running both writes produces the
state the handler ends in. -/
theorem vote_cast_two_writes (s : DbState) (fid : Nat) (k : String) (em : Option String)
    (ip : String) (vt : VoteType) (now : Int) (fb : FeedbackRow) (w : WebsiteRow)
    (hfid : ¬ fid = 0)
    (hfb : findFeedback s fid = some fb)
    (hver : verifyApiKey s fb.websiteId k = some w)
    (hex : lookupVote s fid em ip = none)
    (hok : insertRowOk s (mkVoteRow s fid em ip vt now) = true) :
    (castVoteWrites s fid em ip vt now).length = 2 ∧
    (applyVoteWrite s (VoteWrite.insertRow (mkVoteRow s fid em ip vt now))).votes
      = s.votes ++ [mkVoteRow s fid em ip vt now] ∧
    findFeedback (applyVoteWrite s (VoteWrite.insertRow (mkVoteRow s fid em ip vt now))) fid
      = some fb ∧
    (castVoteWrites s fid em ip vt now).foldl applyVoteWrite s
      = (castVote s fid (some k) em ip vt now).1 := by
  have hwrites : castVoteWrites s fid em ip vt now
      = [VoteWrite.insertRow (mkVoteRow s fid em ip vt now),
         if vt = VoteType.up then VoteWrite.setCounts fid (some (fb.upvotes + 1)) none now
         else VoteWrite.setCounts fid none (some (fb.downvotes + 1)) now] := by
    unfold castVoteWrites
    rw [hfb, hex]
  have hmid : applyVoteWrite s (VoteWrite.insertRow (mkVoteRow s fid em ip vt now))
      = { s with votes := s.votes ++ [mkVoteRow s fid em ip vt now],
                 nextVoteId := s.nextVoteId + 1 } := by
    simp only [applyVoteWrite, hok, if_true]
  refine ⟨by rw [hwrites]; rfl, by rw [hmid], by rw [hmid]; exact hfb, ?_⟩
  rw [hwrites]
  unfold castVote
  rw [if_neg hfid]
  simp only [hfb, hver, hex, hok, if_true]
  show applyVoteWrite (applyVoteWrite s (VoteWrite.insertRow (mkVoteRow s fid em ip vt now)))
      (if vt = VoteType.up then VoteWrite.setCounts fid (some (fb.upvotes + 1)) none now
       else VoteWrite.setCounts fid none (some (fb.downvotes + 1)) now) = _
  rw [hmid]
  cases vt <;> rfl

theorem vote_cast_two_writes_witness :
    (¬ (1 : Nat) = 0) ∧
    findFeedback c2State 1 = some { id := 1, websiteId := 1 } ∧
    (castVoteWrites c2State 1 none "1.2.3.4" VoteType.up 5).foldl applyVoteWrite c2State
      = (castVote c2State 1 (some "k") none "1.2.3.4" VoteType.up 5).1 :=
  ⟨by decide, by decide,
    (vote_cast_two_writes c2State 1 "k" none "1.2.3.4" VoteType.up 5
      { id := 1, websiteId := 1 } { id := 1, apiKey := "k" }
      (by decide) (by decide) (by decide) (by decide) (by decide)).2.2.2⟩

/-- One website, one feedback item, empty ledger. -/
def c3State : DbState :=
  { websites := [{ id := 1, apiKey := "k" }],
    feedback := [{ id := 1, websiteId := 1 }],
    nextFeedbackId := 2 }

/-- C3 counterexample: a vote cast with an email produces a stored Vote row
whose voterEmail AND voterIp are both populated — the row is not a tagged
union with at most one non-null identity field. -/
theorem vote_identity_counterexample :
    ((castVote c3State 1 (some "k") (some "voter@example.com") "1.2.3.4"
        VoteType.up 5).1.votes.map (fun v => (v.voterEmail, v.voterIp)))
      = [(some "voter@example.com", "1.2.3.4")] := by
  decide

/-- C3 amended: the voterIp column is non-nullable and the insert always
records the caller's IP, so a vote cast with an email stores BOTH identity
fields on the same row; what is exclusive is only the lookup key, which is
the email alone whenever one is supplied. -/
theorem vote_identity_amended (s : DbState) (fid : Nat) (k e ip : String)
    (vt : VoteType) (now : Int) (fb : FeedbackRow) (w : WebsiteRow)
    (hfid : ¬ fid = 0)
    (hfb : findFeedback s fid = some fb)
    (hver : verifyApiKey s fb.websiteId k = some w)
    (hex : lookupVote s fid (some e) ip = none)
    (hok : insertRowOk s (mkVoteRow s fid (some e) ip vt now) = true) :
    (castVote s fid (some k) (some e) ip vt now).1.votes
      = s.votes ++ [{ id := s.nextVoteId, feedbackId := fid, voterEmail := some e,
                      voterIp := ip, voteType := vt, createdAt := now }] ∧
    identLookupP fid (some e) ip
      = fun v => v.feedbackId == fid && v.voterEmail == some e := by
  constructor
  · unfold castVote
    rw [if_neg hfid]
    simp only [hfb, hver, hex, hok, if_true]
    cases vt <;> rfl
  · rfl

theorem vote_identity_amended_witness :
    (castVote c3State 1 (some "k") (some "voter@example.com") "1.2.3.4"
        VoteType.up 5).1.votes
      = c3State.votes ++
        [{ id := 1, feedbackId := 1, voterEmail := some "voter@example.com",
           voterIp := "1.2.3.4", voteType := VoteType.up, createdAt := 5 }] :=
  (vote_identity_amended c3State 1 "k" "voter@example.com" "1.2.3.4" VoteType.up 5
    { id := 1, websiteId := 1 } { id := 1, apiKey := "k" }
    (by decide) (by decide) (by decide) (by decide) (by decide)).1

/-- One registered website without a rate limit, no feedback yet. -/
def c4State : DbState := { websites := [{ id := 1, apiKey := "k" }] }

/-- A minimal valid submission body. -/
def c4Body : SubmitBody :=
  { websiteId := 1, ftype := FeedbackType.bug, title := "t", description := "d" }

/-- C4 counterexample: when the feedback_submitted analytics append fails
after the feedback insert, POST /api/feedback does NOT return 201: the
failure lands in the handler's outer catch and the response is the 500
InternalError, even though the feedback row was inserted and remains. -/
theorem analytics_failure_counterexample :
    (submitFeedback c4State c4Body (some "k") "9.9.9.9" "ua" 100 false).2
      = SubmitOutcome.internalError ∧
    (submitFeedback c4State c4Body (some "k") "9.9.9.9" "ua" 100 false).1.feedback.length
      = c4State.feedback.length + 1 := by
  decide

/-- C4 amended: the analytics insert of POST /api/feedback has no try/catch
of its own; if it fails after the feedback insert, the handler answers 500
InternalError while the new feedback row stays inserted and no analytics
event is recorded — the analytics failure does fail the response. -/
theorem analytics_failure_amended (s : DbState) (body : SubmitBody) (k ip ua : String)
    (now : Int) (w : WebsiteRow)
    (hver : verifyApiKey s body.websiteId k = some w)
    (hrl : ∀ rl, (w.settings.getD {}).rateLimit = some rl →
        countRecent s body.websiteId ip (now - (rl.windowMinutes : Int) * 60 * 1000)
          < rl.maxSubmissions) :
    submitFeedback s body (some k) ip ua now false
      = ({ s with feedback := s.feedback ++ [mkFeedbackRow s body ip ua now],
                  nextFeedbackId := s.nextFeedbackId + 1 },
         SubmitOutcome.internalError) := by
  unfold submitFeedback
  simp only [hver]
  cases hset : (w.settings.getD {}).rateLimit with
  | none => rfl
  | some rl =>
      dsimp only
      rw [if_neg (not_le.mpr (hrl rl hset))]
      rfl

theorem analytics_failure_amended_witness :
    submitFeedback c4State c4Body (some "k") "9.9.9.9" "ua" 100 false
      = ({ c4State with
            feedback := c4State.feedback ++ [mkFeedbackRow c4State c4Body "9.9.9.9" "ua" 100],
            nextFeedbackId := c4State.nextFeedbackId + 1 },
         SubmitOutcome.internalError) :=
  analytics_failure_amended c4State c4Body "k" "9.9.9.9" "ua" 100
    { id := 1, apiKey := "k" } (by decide) (by intro rl h; simp at h)

/-- C6: Rate limit boundary: with a declared rate limit (m, w), a submission
from an IP that already has at least m feedback rows for that website inside
the trailing w-minute window fails with RateLimited and inserts nothing,
while a submission whose prior rows from that IP all lie outside the window
succeeds and inserts the row (analytics append succeeding). -/
theorem rate_limit_boundary (s : DbState) (body : SubmitBody) (k ip ua : String)
    (now : Int) (w : WebsiteRow) (rl : RateLimitCfg)
    (hver : verifyApiKey s body.websiteId k = some w)
    (hset : (w.settings.getD {}).rateLimit = some rl) :
    (rl.maxSubmissions
        ≤ countRecent s body.websiteId ip (now - (rl.windowMinutes : Int) * 60 * 1000) →
      submitFeedback s body (some k) ip ua now true = (s, SubmitOutcome.rateLimited)) ∧
    ((∀ f ∈ s.feedback, f.websiteId = body.websiteId → f.ipAddress = some ip →
        f.createdAt ≤ now - (rl.windowMinutes : Int) * 60 * 1000) →
      1 ≤ rl.maxSubmissions →
      (submitFeedback s body (some k) ip ua now true).2
          = SubmitOutcome.created s.nextFeedbackId Status.new now ∧
        (submitFeedback s body (some k) ip ua now true).1.feedback
          = s.feedback ++ [mkFeedbackRow s body ip ua now]) := by
  constructor
  · intro hcount
    unfold submitFeedback
    simp only [hver, hset]
    rw [if_pos hcount]
  · intro hwin hmax
    have hcount : countRecent s body.websiteId ip
        (now - (rl.windowMinutes : Int) * 60 * 1000) = 0 := by
      apply List.countP_eq_zero.mpr
      intro f hf hp
      simp only [Bool.and_eq_true, beq_iff_eq, decide_eq_true_eq] at hp
      exact absurd hp.2 (not_lt.mpr (hwin f hf hp.1.1 hp.1.2))
    have hred : submitFeedback s body (some k) ip ua now true
        = submitInsert s body ip ua now true := by
      unfold submitFeedback
      simp only [hver, hset]
      rw [if_neg (not_le.mpr (by omega))]
    rw [hred]
    exact ⟨rfl, rfl⟩

/-- Three submissions from IP p within the last hour; rate limit 3 per 60
minutes; now = 3600400 ms. -/
def c6Website : WebsiteRow :=
  { id := 1, apiKey := "k",
    settings := some { rateLimit := some { maxSubmissions := 3, windowMinutes := 60 } } }

def c6StateFull : DbState :=
  { websites := [c6Website],
    feedback := [{ id := 1, websiteId := 1, ipAddress := some "p", createdAt := 3600000 },
                 { id := 2, websiteId := 1, ipAddress := some "p", createdAt := 3600100 },
                 { id := 3, websiteId := 1, ipAddress := some "p", createdAt := 3600200 }],
    nextFeedbackId := 4 }

/-- The same three rows, but the clock has advanced past the window. -/
def c6Now : Int := 3600400

/-- One hour and more after every row of c6StateFull. -/
def c6Later : Int := 7200300

theorem rate_limit_boundary_witness :
    submitFeedback c6StateFull c4Body (some "k") "p" "ua" c6Now true
      = (c6StateFull, SubmitOutcome.rateLimited) ∧
    (submitFeedback c6StateFull c4Body (some "k") "p" "ua" c6Later true).2
      = SubmitOutcome.created 4 Status.new c6Later :=
  ⟨(rate_limit_boundary c6StateFull c4Body "k" "p" "ua" c6Now c6Website
      { maxSubmissions := 3, windowMinutes := 60 }
      (by decide) (by decide)).1 (by decide),
   ((rate_limit_boundary c6StateFull c4Body "k" "p" "ua" c6Later c6Website
      { maxSubmissions := 3, windowMinutes := 60 }
      (by decide) (by decide)).2 (by decide) (by decide)).1⟩

lemma sortFeedback_length (k : SortKey) (l : List FeedbackRow) :
    (sortFeedback k l).length = l.length :=
  (List.perm_insertionSort _ l).length_eq

lemma sortFeedback_mem {k : SortKey} {l : List FeedbackRow} {f : FeedbackRow}
    (h : f ∈ sortFeedback k l) : f ∈ l :=
  (List.perm_insertionSort _ l).mem_iff.mp h

lemma listFeedback_total (s : DbState) (wid : Nat) (q : FeedbackQuery) :
    (listFeedback s wid q).total
      = (s.feedback.filter
          (matchesQuery wid q (resolveCategory s wid q.categorySlug))).length := by
  unfold listFeedback
  exact List.countP_eq_length_filter _ _

lemma listFeedback_items_length (s : DbState) (wid : Nat) (q : FeedbackQuery) :
    (listFeedback s wid q).items.length
      = min q.limit
          ((s.feedback.filter
            (matchesQuery wid q (resolveCategory s wid q.categorySlug))).length
          - q.offset) := by
  unfold listFeedback
  dsimp only
  rw [List.length_map, List.length_take, List.length_drop, sortFeedback_length]

lemma listFeedback_page (s : DbState) (wid : Nat) (q : FeedbackQuery) :
    (listFeedback s wid q).page = q.offset / q.limit + 1 := rfl

lemma listFeedback_limit (s : DbState) (wid : Nat) (q : FeedbackQuery) :
    (listFeedback s wid q).limit = q.limit := rfl

lemma listFeedback_totalPages (s : DbState) (wid : Nat) (q : FeedbackQuery) :
    (listFeedback s wid q).totalPages
      = ((listFeedback s wid q).total + q.limit - 1) / q.limit := rfl

/-- C8: Pagination exactness: for every successful list request, the
reported total equals the number of rows matching the full filter set
(computed by the separate count query, not from the page size), the page of
items has length min(limit, total - offset), page = floor(offset/limit)+1,
the limit is echoed, and totalPages is exactly the ceiling of total/limit,
characterized by: totalPages ≤ n iff total ≤ n * limit. -/
theorem pagination_exactness (s : DbState) (wid : Nat) (q : FeedbackQuery)
    (hlim : 1 ≤ q.limit) :
    (listFeedback s wid q).total
      = (s.feedback.filter
          (matchesQuery wid q (resolveCategory s wid q.categorySlug))).length ∧
    (listFeedback s wid q).items.length
      = min q.limit ((listFeedback s wid q).total - q.offset) ∧
    (listFeedback s wid q).page = q.offset / q.limit + 1 ∧
    (listFeedback s wid q).limit = q.limit ∧
    ∀ n : Nat, (listFeedback s wid q).totalPages ≤ n
      ↔ (listFeedback s wid q).total ≤ q.limit * n := by
  refine ⟨listFeedback_total s wid q, ?_, listFeedback_page s wid q,
    listFeedback_limit s wid q, ?_⟩
  · rw [listFeedback_items_length, listFeedback_total]
  · intro n
    rw [listFeedback_totalPages]
    rw [Nat.div_le_iff_le_mul_add_pred (by omega)]
    rw [Nat.add_sub_assoc hlim]
    rw [Nat.add_le_add_iff_right]

/-- 25 feedback rows for website 1, no filters applicable. -/
def c8State : DbState :=
  { websites := [{ id := 1, apiKey := "k" }],
    feedback := (List.range 25).map
      (fun i => { id := i + 1, websiteId := 1, createdAt := (i : Int) }),
    nextFeedbackId := 26 }

def c8Query : FeedbackQuery := { limit := 10, offset := 20 }

theorem pagination_exactness_witness :
    (1 ≤ c8Query.limit) ∧
    (listFeedback c8State 1 c8Query).items.length
      = min c8Query.limit ((listFeedback c8State 1 c8Query).total - c8Query.offset) ∧
    (listFeedback c8State 1 c8Query).total = 25 ∧
    (listFeedback c8State 1 c8Query).items.length = 5 ∧
    (listFeedback c8State 1 c8Query).page = 3 ∧
    (listFeedback c8State 1 c8Query).totalPages = 3 :=
  ⟨by decide, (pagination_exactness c8State 1 c8Query (by decide)).2.1,
   by decide, by decide, by decide, by decide⟩

/-- C9: Category filter silent drop: a category slug that does not resolve
to a category of the requesting website is silently dropped — the result is
identical to the same request without the category filter, not an error;
when the slug does resolve, every returned item carries that category's id. -/
theorem category_filter_silent_drop (s : DbState) (wid : Nat) (q : FeedbackQuery)
    (slug : String) (hq : q.categorySlug = some slug) :
    (resolveCategory s wid (some slug) = none →
      listFeedback s wid q = listFeedback s wid { q with categorySlug := none }) ∧
    ∀ cid, resolveCategory s wid (some slug) = some cid →
      ∀ it ∈ (listFeedback s wid q).items, it.categoryId = some cid := by
  constructor
  · intro hres
    unfold listFeedback
    rw [hq, hres]
    rfl
  · intro cid hres it hit
    unfold listFeedback at hit
    dsimp only at hit
    rw [hq, hres] at hit
    rw [List.mem_map] at hit
    obtain ⟨f, hf, rfl⟩ := hit
    have hf1 : f ∈ sortFeedback q.sort
        (s.feedback.filter (matchesQuery wid q (some cid))) :=
      List.drop_subset _ _ (List.take_subset _ _ hf)
    have hf2 : f ∈ s.feedback.filter (matchesQuery wid q (some cid)) :=
      sortFeedback_mem hf1
    have hmatch := (List.mem_filter.mp hf2).2
    unfold matchesQuery at hmatch
    simp only [Bool.and_eq_true] at hmatch
    have hcat : (f.categoryId == some cid) = true := hmatch.2
    show f.categoryId = some cid
    simpa using hcat

/-- Website 1 with one category (id 7, slug bugs); two items, one in the
category. -/
def c9State : DbState :=
  { websites := [{ id := 1, apiKey := "k" }],
    categories := [{ id := 7, websiteId := 1, slug := "bugs" }],
    feedback := [{ id := 1, websiteId := 1, categoryId := some 7 },
                 { id := 2, websiteId := 1 }],
    nextFeedbackId := 3 }

def c9QueryMiss : FeedbackQuery := { categorySlug := some "none-such" }

def c9QueryHit : FeedbackQuery := { categorySlug := some "bugs" }

theorem category_filter_silent_drop_witness :
    (listFeedback c9State 1 c9QueryMiss
        = listFeedback c9State 1 { c9QueryMiss with categorySlug := none } ∧
      (listFeedback c9State 1 c9QueryMiss).total = 2) ∧
    (∀ it ∈ (listFeedback c9State 1 c9QueryHit).items, it.categoryId = some 7) :=
  ⟨⟨(category_filter_silent_drop c9State 1 c9QueryMiss "none-such" rfl).1 (by decide),
    by decide⟩,
   (category_filter_silent_drop c9State 1 c9QueryHit "bugs" rfl).2 7 (by decide)⟩

/-- Two public items of website 1, created at times 1 and 2. -/
def c7State : DbState :=
  { websites := [{ id := 1, apiKey := "k" }],
    feedback := [{ id := 1, websiteId := 1, isPublic := true, createdAt := 1 },
                 { id := 2, websiteId := 1, isPublic := true, createdAt := 2 }],
    nextFeedbackId := 3 }

/-- C7: the claim says every feedback listing with sort key oldest is
ordered by created-time ascending.  The GET /api/feedback planner indeed
sorts ascending, but getPublicFeedback in src/lib/utils.ts maps its oldest
case to desc(createdAt): on two items created at times 1 and 2 it returns
them newest-first [2, 1], contradicting the claim at that listing. -/
theorem get_public_feedback_oldest_descending :
    (getPublicFeedback c7State 1 10 0 none none PublicSortKey.oldest).map
        (fun it => it.id) = [2, 1] ∧
    (listFeedback c7State 1 { sort := SortKey.oldest }).items.map
        (fun it => it.id) = [1, 2] := by
  decide

/-- Models the zod output for a limit string that parseInt sends to a falsy
value: the transform yields the default 10 before the 1..100 bound check. -/
lemma feedbackQueryLimit_falsy {lv : String}
    (h : jsParseInt lv = none ∨ jsParseInt lv = some 0) :
    feedbackQueryLimit lv = some 10 := by
  rcases h with h | h <;>
    · unfold feedbackQueryLimit
      rw [h]
      decide

lemma feedbackQueryOffset_nan {ov : String} (h : jsParseInt ov = none) :
    feedbackQueryOffset ov = some 0 := by
  unfold feedbackQueryOffset
  rw [h]
  decide

/-- C10: a limit query string that parses to 0 or is non-numeric is
silently replaced by the default 10 before the 1-100 bound is checked (and
a non-numeric offset is replaced by 0): a request with such a limit is not
rejected but succeeds with the default page size, returning at most 10
items. -/
theorem limit_zero_replaced_by_default (s : DbState) (wid : Nat) (k lv : String)
    (w : WebsiteRow)
    (hwid : ¬ wid = 0)
    (hver : verifyApiKey s wid k = some w)
    (hne : ¬ lv = "")
    (hlv : jsParseInt lv = none ∨ jsParseInt lv = some 0) :
    feedbackQueryLimit lv = some 10 ∧
    (∀ ov, jsParseInt ov = none → feedbackQueryOffset ov = some 0) ∧
    getFeedbackRoute s wid (some k) { limit := some lv }
      = ListOutcome.okList (listFeedback s wid { limit := 10 }) ∧
    (listFeedback s wid { limit := 10 }).items.length ≤ 10 := by
  have hl : feedbackQueryLimit (orElseStr (some lv) "10") = some 10 := by
    rw [show orElseStr (some lv) "10" = lv from by simp [orElseStr, hne]]
    exact feedbackQueryLimit_falsy hlv
  refine ⟨feedbackQueryLimit_falsy hlv, fun ov h => feedbackQueryOffset_nan h, ?_, ?_⟩
  · have hparse : parseFeedbackQuery { limit := some lv } = some { limit := 10 } := by
      unfold parseFeedbackQuery
      rw [hl]
      rfl
    unfold getFeedbackRoute
    rw [if_neg hwid]
    simp only [hver, hparse]
  · rw [listFeedback_items_length]
    exact min_le_left _ _

def c10State : DbState :=
  { websites := [{ id := 1, apiKey := "k" }],
    feedback := (List.range 12).map
      (fun i => { id := i + 1, websiteId := 1, createdAt := (i : Int) }),
    nextFeedbackId := 13 }

theorem limit_zero_replaced_by_default_witness :
    feedbackQueryLimit "0" = some 10 ∧
    feedbackQueryOffset "abc" = some 0 ∧
    getFeedbackRoute c10State 1 (some "k") { limit := some "0" }
      = ListOutcome.okList (listFeedback c10State 1 { limit := 10 }) ∧
    (listFeedback c10State 1 { limit := 10 }).items.length ≤ 10 :=
  have h := limit_zero_replaced_by_default c10State 1 "k" "0"
    { id := 1, apiKey := "k" } (by decide) (by decide) (by decide)
    (Or.inr (by decide))
  ⟨h.1, h.2.1 "abc" (by decide), h.2.2.1, h.2.2.2⟩
